import Mathlib

/-
  Verification of the path canonicalization core (`xabspath`) of
  src/toylib/xfile.c, over a shallow embedding.

  The file embeds the resolution engine of `xabspath` faithfully, statement by
  statement: the pending / resolved component lists, the directory cursor
  (modelled as a handle carrying the component path it was opened on, plus a
  ledger of open/close events so that handle-discipline claims can be stated),
  the 9999 iteration budget, the errno threading, and the single `error:`
  cleanup label.  The filesystem the call runs against is a finite tree of
  directories, regular files and symlinks; the collaborators `xreadlinkat`,
  `xopenat` and `splitpath`, whose code is not part of the file under
  verification, are modelled from the spec's contracts for them.
-/

namespace Shellbox

/-- The OS error codes that the resolution core inspects or produces. -/
inductive Errno where
  | ENOENT
  | EINVAL
  | ENOTDIR
  | ELOOP
deriving DecidableEq, Repr

/-- A node of the model filesystem: a directory with named children, a regular
file, or a symbolic link holding its target string. -/
inductive FsNode where
  | dir (children : List (String × FsNode))
  | file
  | symlink (target : String)

/-- Directory entry lookup: first child with the given name. -/
def findChild : List (String × FsNode) → String → Option FsNode
  | [], _ => none
  | (n, node) :: rest, name => if n = name then some node else findChild rest name

/-- Walk a component path down from a node, each component a plain child
lookup (handles store only already-opened plain names, so no symlink or dot
processing happens here). -/
def resolveNode : List String → FsNode → Option FsNode
  | [], node => some node
  | name :: rest, FsNode.dir cs =>
    match findChild cs name with
    | some c => resolveNode rest c
    | none => none
  | _ :: _, _ => none

/-- A filesystem is the list of children of the root directory. -/
abbrev Fs := List (String × FsNode)

/-- The node a directory handle (stored as its component path) refers to. -/
def resolveHandle (fs : Fs) (p : List String) : Option FsNode :=
  resolveNode p (FsNode.dir fs)

/-- Modelled from the spec: `read-symlink-relative(directory_handle, name,
buffer, max_len) -> byte_count | failure(errno)` (the collaborator
`xreadlinkat`, whose code is not in the file under verification).  Failure
`EINVAL` means "exists but is not a symlink", `ENOENT` means "does not
exist"; a handle that does not refer to a directory gives `ENOTDIR`.  On
success the full target string is returned; the caller models the byte
count as its length. -/
def readlinkat (fs : Fs) (dir : List String) (name : String) : Except Errno String :=
  match resolveHandle fs dir with
  | some (FsNode.dir cs) =>
    match findChild cs name with
    | some (FsNode.symlink t) => Except.ok t
    | some _ => Except.error Errno.EINVAL
    | none => Except.error Errno.ENOENT
  | some _ => Except.error Errno.ENOTDIR
  | none => Except.error Errno.ENOENT

/-- Modelled from the spec: `open-relative(directory_handle, name, flags) ->
handle | failure(errno)` (the collaborator `xopenat`, whose code is not in
the file under verification).  It supports `..` and ordinary names relative
to a directory handle; opening any existing entry succeeds (`xabspath` only
ever opens names that `readlinkat` reported as not being symlinks). -/
def openat (fs : Fs) (dir : List String) (name : String) : Except Errno (List String) :=
  match resolveHandle fs dir with
  | some (FsNode.dir cs) =>
    if name = ".." then Except.ok dir.dropLast
    else
      match findChild cs name with
      | some _ => Except.ok (dir ++ [name])
      | none => Except.error Errno.ENOENT
  | some _ => Except.error Errno.ENOTDIR
  | none => Except.error Errno.ENOENT

/-- Modelled from the spec: the component splitter (`splitpath`, whose code is
not in the file under verification) "splits the string on `/`, silently
dropping empty components".  `cur` accumulates the characters of the current
component in reverse. -/
def splitpathAux : List Char → List Char → List String
  | [], cur => if cur = [] then [] else [String.mk cur.reverse]
  | c :: cs, cur =>
    if c = '/' then
      if cur = [] then splitpathAux cs []
      else String.mk cur.reverse :: splitpathAux cs []
    else splitpathAux cs (c :: cur)

/-- Split a path string into its non-empty components, in order. -/
def splitpath (s : String) : List String :=
  splitpathAux s.data []

/-- The canonical assembler of `xabspath` (lines 259-270): starting from the
one-byte string `"/"`, append each component of the final-order list,
preceded by a `/` separator whenever the buffer already holds more than the
leading slash (`if (try>1) ret[try++]='/';`).  The argument is the `done`
list, most recently committed component first, so it is reversed first. -/
def assembleStep (acc s : String) : String :=
  if acc.length > 1 then acc ++ "/" ++ s else acc ++ s

/-- See `assembleStep`: the full assembly, over the reversed resolved list. -/
def assemble (done : List String) : String :=
  done.reverse.foldl assembleStep "/"

/-- A live directory handle: a fresh id (for the open/close ledger) and the
component path it was opened on. -/
structure Handle where
  id : Nat
  path : List String
deriving DecidableEq, Repr

/-- The state of one `xabspath` call: the pending (`todo`) and resolved
(`done`) component lists, the directory cursor `dirfd` (`none` models fd
`-1`), the current `errno`, and the handle ledger: ids of currently open
handles, the next fresh id, the largest number of simultaneously open
handles seen so far, and whether every loop iteration so far started with
exactly one open handle. -/
structure St where
  todo : List String
  done : List String
  dirfd : Option Handle
  errno : Errno
  live : List Nat
  nextId : Nat
  maxLive : Nat
  iterOk : Bool
deriving DecidableEq, Repr

/-- The handle a successful open returns in state `st` for path `p`. -/
def openedHandle (st : St) (p : List String) : Handle :=
  ⟨st.nextId, p⟩

/-- Ledger effect of a successful open: one more live handle. -/
def openEv (st : St) : St :=
  { st with live := st.nextId :: st.live, nextId := st.nextId + 1,
            maxLive := max st.maxLive (st.live.length + 1) }

/-- Ledger effect of `close(dirfd)`: drop the handle's id from the live set;
`close(-1)` (a `none` handle) is a no-op. -/
def closeEv (st : St) (h : Option Handle) : St :=
  match h with
  | none => st
  | some h => { st with live := st.live.erase h.id }

/-- The single `error:` exit (lines 272-277): close the current handle, free
the pending and resolved lists, return NULL with `errno` untouched. -/
def errorExit (st : St) : Except Errno String × St :=
  let st' := closeEv st st.dirfd
  (Except.error st'.errno, { st' with dirfd := none, todo := [], done := [] })

/-- The normal exit (lines 244-270): close the current handle (a no-op on fd
`-1`), then reverse the resolved list and assemble the result string,
freeing the nodes as they are consumed. -/
def finishOk (st : St) : Except Errno String × St :=
  let st' := closeEv st st.dirfd
  (Except.ok (assemble st'.done), { st' with dirfd := none, todo := [], done := [] })

/-- The component path the current cursor was opened on (unused when the
cursor is fd `-1`, which only happens once the pending list is empty). -/
def dirfdPath (st : St) : List String :=
  match st.dirfd with
  | some h => h.path
  | none => []

/-- Result of one loop iteration: either continue with a new state, or leave
the loop with a finished result. -/
inductive StepRes where
  | cont (st : St)
  | finished (r : Except Errno String × St)

/-- Lines 218-222: `fd = xopenat(dirfd, s, 0); if (fd == -1 && (exact || todo
|| errno != ENOENT)) goto error; close(dirfd); dirfd = fd; continue;`.  On
success the new handle is opened before the old cursor is closed; a tolerated
`ENOENT` failure (terminal component, exact off) leaves the cursor as fd
`-1`. -/
def advanceCursor (fs : Fs) (exact : Bool) (st : St) (s : String) : StepRes :=
  match openat fs (dirfdPath st) s with
  | Except.ok p =>
    let h := openedHandle st p
    let st1 := openEv st
    let st2 := closeEv st1 st.dirfd
    StepRes.cont { st2 with dirfd := some h }
  | Except.error e =>
    let st1 := { st with errno := e }
    if exact = true ∨ st.todo ≠ [] ∨ e ≠ Errno.ENOENT then StepRes.finished (errorExit st1)
    else
      let st2 := closeEv st1 st1.dirfd
      StepRes.cont { st2 with dirfd := none }

/-- One iteration of the resolution loop (lines 182-243), after the head of
the pending list has been popped and the budget decremented (both done by
`resolveLoop`): dispatch on `.`, `..`, and the outcome of reading the
component as a symlink, exactly as the C does. -/
def resolveStep (fs : Fs) (exact : Bool) (st : St) : StepRes :=
  match st.todo with
  | [] => StepRes.finished (finishOk st)
  | new :: rest =>
    let st0 := { st with todo := rest }
    if new = "." then StepRes.cont st0
    else if new = ".." then
      advanceCursor fs exact { st0 with done := st0.done.tail } ".."
    else
      match readlinkat fs (dirfdPath st) new with
      | Except.error e =>
        let st1 := { st0 with errno := e }
        if (exact = true ∨ rest ≠ []) ∧ e ≠ Errno.EINVAL then StepRes.finished (errorExit st1)
        else
          let st2 := { st1 with done := new :: st1.done }
          if e = Errno.EINVAL ∧ rest = [] then StepRes.finished (finishOk st2)
          else advanceCursor fs exact st2 new
      | Except.ok t =>
        if t.length > 4095 then StepRes.finished (errorExit st0)
        else if t.length = 0 then advanceCursor fs exact st0 ".."
        else
          let st3 :=
            if t.data.head? = some '/' then
              let stc := closeEv { st0 with done := [] } st0.dirfd
              { openEv stc with dirfd := some (openedHandle stc []) }
            else st0
          StepRes.cont { st3 with todo := splitpath t ++ st3.todo }

/-- Ledger bookkeeping at the start of each loop iteration: record whether the
iteration started with exactly one open handle. -/
def iterMark (st : St) : St :=
  { st with iterOk := st.iterOk && (st.live.length == 1) }

/-- The resolution loop, driven by the iteration budget `try`: each iteration
pops the head of the pending list, and `if (!try--)` fails with `ELOOP` when
the budget is already exhausted.  The popped node is dropped (the C leaks
it on that path; it belongs to neither list). -/
def resolveLoop (fs : Fs) (exact : Bool) : Nat → St → Except Errno String × St
  | 0, st =>
    match st.todo with
    | [] => finishOk st
    | _ :: rest =>
      errorExit { iterMark st with todo := rest, errno := Errno.ELOOP }
  | n + 1, st =>
    match st.todo with
    | [] => finishOk st
    | _ :: _ =>
      match resolveStep fs exact (iterMark st) with
      | StepRes.cont st' => resolveLoop fs exact n st'
      | StepRes.finished r => r

/-- The state `xabspath` starts from: the seeded pending list, an empty
resolved list, a cursor opened on the filesystem root (`open("/", 0)`,
handle id 0), the caller's incoming `errno`, and a fresh ledger. -/
def initSt (todo : List String) (e0 : Errno) : St :=
  { todo := todo, done := [], dirfd := some ⟨0, []⟩, errno := e0,
    live := [0], nextId := 1, maxLive := 1, iterOk := true }

/-- `*path != '/'`: whether the input path is absolute. -/
def pathIsAbs (s : String) : Bool :=
  match s.data with
  | '/' :: _ => true
  | _ => false

/-- `xabspath(path, exact)` (lines 167-278), also returning the final state so
that ledger and cleanup facts can be stated.  `fs` is the filesystem the
call runs against, `cwd` the current working directory string (used only for
relative inputs), `e0` the incoming value of `errno`. -/
def xabspathFull (fs : Fs) (cwd : String) (e0 : Errno) (path : String) (exact : Bool) :
    Except Errno String × St :=
  let todo := if pathIsAbs path then splitpath path else splitpath cwd ++ splitpath path
  resolveLoop fs exact 9999 (initSt todo e0)

/-- `xabspath(path, exact)`: the value the caller sees, `Except.error e`
modelling a NULL return with `errno` equal to `e`. -/
def xabspath (fs : Fs) (cwd : String) (e0 : Errno) (path : String) (exact : Bool) :
    Except Errno String :=
  (xabspathFull fs cwd e0 path exact).1

/-! ### Basic unfolding lemmas -/

theorem resolveLoop_todo_nil (fs : Fs) (exact : Bool) (n : Nat) (st : St)
    (h : st.todo = []) : resolveLoop fs exact n st = finishOk st := by
  cases n <;> simp [resolveLoop, h]

theorem resolveLoop_succ_cons (fs : Fs) (exact : Bool) (n : Nat) (st : St)
    (c : String) (rest : List String) (h : st.todo = c :: rest) :
    resolveLoop fs exact (n + 1) st =
      match resolveStep fs exact (iterMark st) with
      | StepRes.cont st' => resolveLoop fs exact n st'
      | StepRes.finished r => r := by
  simp [resolveLoop, h]

theorem resolveLoop_zero_cons (fs : Fs) (exact : Bool) (st : St)
    (c : String) (rest : List String) (h : st.todo = c :: rest) :
    resolveLoop fs exact 0 st =
      errorExit { iterMark st with todo := rest, errno := Errno.ELOOP } := by
  simp [resolveLoop, h]

/-! ### Lemmas about the canonical assembler -/

theorem foldl_assembleStep_go (l : List String) :
    ∀ acc : String, 1 < acc.length →
      l.foldl assembleStep acc = String.intercalate.go acc "/" l := by
  induction l with
  | nil => intro acc _; rfl
  | cons c l ih =>
    intro acc hacc
    have hone : ("/" : String).length = 1 := rfl
    have hstep : assembleStep acc c = acc ++ "/" ++ c := by
      simp [assembleStep, hacc]
    have hlen : 1 < (acc ++ "/" ++ c).length := by
      simp [String.length_append, hone]
      omega
    calc (c :: l).foldl assembleStep acc = l.foldl assembleStep (assembleStep acc c) := rfl
      _ = l.foldl assembleStep (acc ++ "/" ++ c) := by rw [hstep]
      _ = String.intercalate.go (acc ++ "/" ++ c) "/" l := ih _ hlen
      _ = String.intercalate.go acc "/" (c :: l) := rfl

theorem intercalate_go_pre (s : String) (l : List String) :
    ∀ acc pre : String,
      String.intercalate.go (pre ++ acc) s l = pre ++ String.intercalate.go acc s l := by
  induction l with
  | nil => intro acc pre; rfl
  | cons a as ih =>
    intro acc pre
    calc String.intercalate.go (pre ++ acc) s (a :: as)
        = String.intercalate.go (pre ++ acc ++ s ++ a) s as := rfl
      _ = String.intercalate.go (pre ++ (acc ++ s ++ a)) s as := by
          simp [String.append_assoc]
      _ = pre ++ String.intercalate.go (acc ++ s ++ a) s as := ih _ _
      _ = pre ++ String.intercalate.go acc s (a :: as) := rfl

theorem length_pos_of_ne_empty (c : String) (h : c ≠ "") : 0 < c.length := by
  cases c with
  | mk data =>
    cases data with
    | nil => exact absurd rfl h
    | cons a l => simp [String.length]

theorem assemble_eq_intercalate (dn : List String) (h : ∀ c ∈ dn, c ≠ "") :
    assemble dn = "/" ++ String.intercalate "/" dn.reverse := by
  cases hrev : dn.reverse with
  | nil =>
    have : dn = [] := by
      cases dn with
      | nil => rfl
      | cons a l => simp at hrev
    subst this
    rfl
  | cons c l =>
    have hc : c ∈ dn := by
      have : c ∈ dn.reverse := by rw [hrev]; exact List.mem_cons_self c l
      exact List.mem_reverse.mp this
    have hcne : c ≠ "" := h c hc
    have hone : ("/" : String).length = 1 := rfl
    have hlen : 1 < ("/" ++ c).length := by
      have := length_pos_of_ne_empty c hcne
      simp [String.length_append, hone]
      omega
    have hstep : assembleStep "/" c = "/" ++ c := by
      rw [assembleStep, hone]
      simp
    calc assemble dn = (c :: l).foldl assembleStep "/" := by rw [assemble, hrev]
      _ = l.foldl assembleStep ("/" ++ c) := by rw [List.foldl_cons, hstep]
      _ = String.intercalate.go ("/" ++ c) "/" l := foldl_assembleStep_go l _ hlen
      _ = "/" ++ String.intercalate.go c "/" l := intercalate_go_pre "/" l c "/"
      _ = "/" ++ String.intercalate "/" (c :: l) := rfl

theorem assemble_ends_with (dn : List String) (last : String) :
    ∃ p, assemble (last :: dn) = p ++ last := by
  rw [assemble, List.reverse_cons, List.foldl_append]
  rw [List.foldl_cons, List.foldl_nil]
  rw [assembleStep]
  by_cases h : 1 < (dn.reverse.foldl assembleStep "/").length
  · exact ⟨_, by rw [if_pos h]⟩
  · exact ⟨_, by rw [if_neg h]⟩

/-! ### Lemmas about the component splitter -/

/-- A well-formed path component: non-empty and free of separators. -/
def goodComp (c : String) : Prop := c.data ≠ [] ∧ '/' ∉ c.data

theorem splitpathAux_good (cs : List Char) :
    ∀ cur : List Char, '/' ∉ cur → ∀ c ∈ splitpathAux cs cur, goodComp c := by
  induction cs with
  | nil =>
    intro cur hcur c hc
    rw [splitpathAux] at hc
    by_cases hn : cur = []
    · simp [hn] at hc
    · rw [if_neg hn] at hc
      simp at hc
      subst hc
      refine ⟨by simpa using hn, by simpa using hcur⟩
  | cons a as ih =>
    intro cur hcur c hc
    rw [splitpathAux] at hc
    by_cases ha : a = '/'
    · rw [if_pos ha] at hc
      by_cases hn : cur = []
      · rw [if_pos hn] at hc
        exact ih [] (by simp) c hc
      · rw [if_neg hn] at hc
        rcases List.mem_cons.mp hc with hc | hc
        · subst hc
          refine ⟨by simpa using hn, by simpa using hcur⟩
        · exact ih [] (by simp) c hc
    · rw [if_neg ha] at hc
      refine ih (a :: cur) ?_ c hc
      intro hmem
      rcases List.mem_cons.mp hmem with h | h
      · exact ha h.symm
      · exact hcur h

theorem splitpath_good (s : String) : ∀ c ∈ splitpath s, goodComp c :=
  splitpathAux_good s.data [] (by simp)

theorem goodComp_ne_empty (c : String) (h : goodComp c) : c ≠ "" := by
  intro he
  subst he
  exact h.1 rfl

/-! ### Field projections of the ledger operations -/

@[simp] theorem closeEv_todo (st : St) (h : Option Handle) : (closeEv st h).todo = st.todo := by
  cases h <;> rfl

@[simp] theorem closeEv_done (st : St) (h : Option Handle) : (closeEv st h).done = st.done := by
  cases h <;> rfl

@[simp] theorem closeEv_errno (st : St) (h : Option Handle) : (closeEv st h).errno = st.errno := by
  cases h <;> rfl

@[simp] theorem closeEv_dirfd (st : St) (h : Option Handle) : (closeEv st h).dirfd = st.dirfd := by
  cases h <;> rfl

@[simp] theorem closeEv_nextId (st : St) (h : Option Handle) : (closeEv st h).nextId = st.nextId := by
  cases h <;> rfl

@[simp] theorem closeEv_maxLive (st : St) (h : Option Handle) : (closeEv st h).maxLive = st.maxLive := by
  cases h <;> rfl

@[simp] theorem closeEv_iterOk (st : St) (h : Option Handle) : (closeEv st h).iterOk = st.iterOk := by
  cases h <;> rfl

@[simp] theorem openEv_todo (st : St) : (openEv st).todo = st.todo := rfl

@[simp] theorem openEv_done (st : St) : (openEv st).done = st.done := rfl

@[simp] theorem openEv_errno (st : St) : (openEv st).errno = st.errno := rfl

@[simp] theorem openEv_dirfd (st : St) : (openEv st).dirfd = st.dirfd := rfl

@[simp] theorem openEv_iterOk (st : St) : (openEv st).iterOk = st.iterOk := rfl

@[simp] theorem errorExit_fst (st : St) : (errorExit st).1 = Except.error st.errno := by
  simp [errorExit]

@[simp] theorem finishOk_fst (st : St) : (finishOk st).1 = Except.ok (assemble st.done) := by
  simp [finishOk]

@[simp] theorem errorExit_snd_todo (st : St) : (errorExit st).2.todo = [] := rfl

@[simp] theorem errorExit_snd_done (st : St) : (errorExit st).2.done = [] := rfl

@[simp] theorem errorExit_snd_errno (st : St) : (errorExit st).2.errno = st.errno := by
  simp [errorExit]

@[simp] theorem finishOk_snd_todo (st : St) : (finishOk st).2.todo = [] := rfl

@[simp] theorem finishOk_snd_done (st : St) : (finishOk st).2.done = [] := rfl

@[simp] theorem iterMark_todo (st : St) : (iterMark st).todo = st.todo := rfl

@[simp] theorem iterMark_done (st : St) : (iterMark st).done = st.done := rfl

@[simp] theorem iterMark_errno (st : St) : (iterMark st).errno = st.errno := rfl

@[simp] theorem iterMark_dirfd (st : St) : (iterMark st).dirfd = st.dirfd := rfl

/-! ### The caller-visible result depends only on the lists, errno and the
cursor's path, not on the ledger bookkeeping -/

/-- Two states that agree on everything the returned value can depend on. -/
def ObsEq (a b : St) : Prop :=
  a.todo = b.todo ∧ a.done = b.done ∧ a.errno = b.errno ∧
  Option.map Handle.path a.dirfd = Option.map Handle.path b.dirfd

theorem ObsEq.dirfdPath {a b : St} (h : ObsEq a b) : dirfdPath a = dirfdPath b := by
  obtain ⟨-, -, -, hp⟩ := h
  unfold Shellbox.dirfdPath
  cases hA : a.dirfd <;> cases hB : b.dirfd <;> rw [hA, hB] at hp <;> simp_all

theorem ObsEq.iterMark {a b : St} (h : ObsEq a b) : ObsEq (iterMark a) (iterMark b) := h

/-! ### Branch equation lemmas for one iteration -/

theorem advanceCursor_ok (fs : Fs) (ex : Bool) (st : St) (s : String) (p : List String)
    (h : openat fs (dirfdPath st) s = Except.ok p) :
    advanceCursor fs ex st s =
      StepRes.cont { closeEv (openEv st) st.dirfd with dirfd := some (openedHandle st p) } := by
  unfold advanceCursor
  rw [h]

theorem advanceCursor_err_fatal (fs : Fs) (ex : Bool) (st : St) (s : String) (e : Errno)
    (h : openat fs (dirfdPath st) s = Except.error e)
    (hc : ex = true ∨ st.todo ≠ [] ∨ e ≠ Errno.ENOENT) :
    advanceCursor fs ex st s = StepRes.finished (errorExit { st with errno := e }) := by
  unfold advanceCursor
  rw [h]
  try dsimp only
  rw [if_pos hc]

theorem advanceCursor_err_tol (fs : Fs) (ex : Bool) (st : St) (s : String) (e : Errno)
    (h : openat fs (dirfdPath st) s = Except.error e)
    (hc : ¬(ex = true ∨ st.todo ≠ [] ∨ e ≠ Errno.ENOENT)) :
    advanceCursor fs ex st s =
      StepRes.cont { closeEv { st with errno := e } st.dirfd with dirfd := none } := by
  unfold advanceCursor
  rw [h]
  try dsimp only
  rw [if_neg hc]

theorem resolveStep_nil (fs : Fs) (ex : Bool) (st : St) (h : st.todo = []) :
    resolveStep fs ex st = StepRes.finished (finishOk st) := by
  unfold resolveStep
  rw [h]

theorem resolveStep_dot (fs : Fs) (ex : Bool) (st : St) (rest : List String)
    (h : st.todo = "." :: rest) :
    resolveStep fs ex st = StepRes.cont { st with todo := rest } := by
  unfold resolveStep
  rw [h]
  try dsimp only
  rw [if_pos rfl]

theorem resolveStep_dotdot (fs : Fs) (ex : Bool) (st : St) (rest : List String)
    (h : st.todo = ".." :: rest) :
    resolveStep fs ex st =
      advanceCursor fs ex { st with todo := rest, done := st.done.tail } ".." := by
  unfold resolveStep
  rw [h]
  try dsimp only
  rw [if_neg (by decide : ¬(".." : String) = "."), if_pos rfl]

theorem resolveStep_rl_err_fatal (fs : Fs) (ex : Bool) (st : St) (new : String)
    (rest : List String) (e : Errno) (h : st.todo = new :: rest)
    (h1 : new ≠ ".") (h2 : new ≠ "..")
    (hr : readlinkat fs (dirfdPath st) new = Except.error e)
    (hc : (ex = true ∨ rest ≠ []) ∧ e ≠ Errno.EINVAL) :
    resolveStep fs ex st = StepRes.finished (errorExit { st with todo := rest, errno := e }) := by
  unfold resolveStep
  rw [h]
  try dsimp only
  rw [if_neg h1, if_neg h2, hr]
  try dsimp only
  rw [if_pos hc]

theorem resolveStep_rl_err_brk (fs : Fs) (ex : Bool) (st : St) (new : String)
    (rest : List String) (e : Errno) (h : st.todo = new :: rest)
    (h1 : new ≠ ".") (h2 : new ≠ "..")
    (hr : readlinkat fs (dirfdPath st) new = Except.error e)
    (hnc : ¬((ex = true ∨ rest ≠ []) ∧ e ≠ Errno.EINVAL))
    (hbrk : e = Errno.EINVAL ∧ rest = []) :
    resolveStep fs ex st =
      StepRes.finished (finishOk { st with todo := rest, errno := e, done := new :: st.done }) := by
  unfold resolveStep
  rw [h]
  try dsimp only
  rw [if_neg h1, if_neg h2, hr]
  try dsimp only
  rw [if_neg hnc]
  try dsimp only
  rw [if_pos hbrk]

theorem resolveStep_rl_err_adv (fs : Fs) (ex : Bool) (st : St) (new : String)
    (rest : List String) (e : Errno) (h : st.todo = new :: rest)
    (h1 : new ≠ ".") (h2 : new ≠ "..")
    (hr : readlinkat fs (dirfdPath st) new = Except.error e)
    (hnc : ¬((ex = true ∨ rest ≠ []) ∧ e ≠ Errno.EINVAL))
    (hnbrk : ¬(e = Errno.EINVAL ∧ rest = [])) :
    resolveStep fs ex st =
      advanceCursor fs ex { st with todo := rest, errno := e, done := new :: st.done } new := by
  unfold resolveStep
  rw [h]
  try dsimp only
  rw [if_neg h1, if_neg h2, hr]
  try dsimp only
  rw [if_neg hnc]
  try dsimp only
  rw [if_neg hnbrk]

theorem resolveStep_rl_ok_long (fs : Fs) (ex : Bool) (st : St) (new : String)
    (rest : List String) (t : String) (h : st.todo = new :: rest)
    (h1 : new ≠ ".") (h2 : new ≠ "..")
    (hr : readlinkat fs (dirfdPath st) new = Except.ok t)
    (hlen : t.length > 4095) :
    resolveStep fs ex st = StepRes.finished (errorExit { st with todo := rest }) := by
  unfold resolveStep
  rw [h]
  try dsimp only
  rw [if_neg h1, if_neg h2, hr]
  try dsimp only
  rw [if_pos hlen]

theorem resolveStep_rl_ok_empty (fs : Fs) (ex : Bool) (st : St) (new : String)
    (rest : List String) (t : String) (h : st.todo = new :: rest)
    (h1 : new ≠ ".") (h2 : new ≠ "..")
    (hr : readlinkat fs (dirfdPath st) new = Except.ok t)
    (hlen : ¬(t.length > 4095)) (h0 : t.length = 0) :
    resolveStep fs ex st = advanceCursor fs ex { st with todo := rest } ".." := by
  unfold resolveStep
  rw [h]
  try dsimp only
  rw [if_neg h1, if_neg h2, hr]
  try dsimp only
  rw [if_neg hlen, if_pos h0]

theorem resolveStep_rl_ok_abs (fs : Fs) (ex : Bool) (st : St) (new : String)
    (rest : List String) (t : String) (h : st.todo = new :: rest)
    (h1 : new ≠ ".") (h2 : new ≠ "..")
    (hr : readlinkat fs (dirfdPath st) new = Except.ok t)
    (hlen : ¬(t.length > 4095)) (h0 : ¬(t.length = 0))
    (habs : t.data.head? = some '/') :
    resolveStep fs ex st =
      StepRes.cont { openEv (closeEv { st with todo := rest, done := [] } st.dirfd) with
                       dirfd := some ⟨st.nextId, []⟩, todo := splitpath t ++ rest } := by
  unfold resolveStep
  rw [h]
  try dsimp only
  rw [if_neg h1, if_neg h2, hr]
  try dsimp only
  rw [if_neg hlen, if_neg h0, if_pos habs]
  cases st.dirfd <;> rfl

theorem resolveStep_rl_ok_rel (fs : Fs) (ex : Bool) (st : St) (new : String)
    (rest : List String) (t : String) (h : st.todo = new :: rest)
    (h1 : new ≠ ".") (h2 : new ≠ "..")
    (hr : readlinkat fs (dirfdPath st) new = Except.ok t)
    (hlen : ¬(t.length > 4095)) (h0 : ¬(t.length = 0))
    (habs : ¬(t.data.head? = some '/')) :
    resolveStep fs ex st = StepRes.cont { st with todo := splitpath t ++ rest } := by
  unfold resolveStep
  rw [h]
  try dsimp only
  rw [if_neg h1, if_neg h2, hr]
  try dsimp only
  rw [if_neg hlen, if_neg h0, if_neg habs]

theorem advanceCursor_obsEq (fs : Fs) (ex : Bool) (a b : St) (s : String) (h : ObsEq a b) :
    (∀ a', advanceCursor fs ex a s = StepRes.cont a' →
      ∃ b', advanceCursor fs ex b s = StepRes.cont b' ∧ ObsEq a' b') ∧
    (∀ r, advanceCursor fs ex a s = StepRes.finished r →
      ∃ r', advanceCursor fs ex b s = StepRes.finished r' ∧ r.1 = r'.1) := by
  obtain ⟨ht, hd, he, hp⟩ := h
  have hpath : dirfdPath a = dirfdPath b := ObsEq.dirfdPath ⟨ht, hd, he, hp⟩
  cases hop : openat fs (dirfdPath a) s with
  | ok p =>
    have hopb : openat fs (dirfdPath b) s = Except.ok p := by rw [← hpath]; exact hop
    rw [advanceCursor_ok fs ex a s p hop, advanceCursor_ok fs ex b s p hopb]
    constructor
    · intro a' ha'
      cases ha'
      exact ⟨_, rfl, by simp [ht], by simp [hd], by simp [he], by simp [openedHandle]⟩
    · intro r hr
      cases hr
  | error e =>
    have hopb : openat fs (dirfdPath b) s = Except.error e := by rw [← hpath]; exact hop
    by_cases hc : ex = true ∨ a.todo ≠ [] ∨ e ≠ Errno.ENOENT
    · have hcb : ex = true ∨ b.todo ≠ [] ∨ e ≠ Errno.ENOENT := by rw [← ht]; exact hc
      rw [advanceCursor_err_fatal fs ex a s e hop hc,
          advanceCursor_err_fatal fs ex b s e hopb hcb]
      constructor
      · intro a' ha'
        cases ha'
      · intro r hr
        cases hr
        exact ⟨_, rfl, by simp⟩
    · have hcb : ¬(ex = true ∨ b.todo ≠ [] ∨ e ≠ Errno.ENOENT) := by rw [← ht]; exact hc
      rw [advanceCursor_err_tol fs ex a s e hop hc,
          advanceCursor_err_tol fs ex b s e hopb hcb]
      constructor
      · intro a' ha'
        cases ha'
        exact ⟨_, rfl, by simp [ht], by simp [hd], by simp, by simp⟩
      · intro r hr
        cases hr

theorem resolveStep_obsEq (fs : Fs) (ex : Bool) (a b : St) (h : ObsEq a b) :
    (∀ a', resolveStep fs ex a = StepRes.cont a' →
      ∃ b', resolveStep fs ex b = StepRes.cont b' ∧ ObsEq a' b') ∧
    (∀ r, resolveStep fs ex a = StepRes.finished r →
      ∃ r', resolveStep fs ex b = StepRes.finished r' ∧ r.1 = r'.1) := by
  obtain ⟨ht, hd, he, hp⟩ := h
  have hpath : dirfdPath a = dirfdPath b := ObsEq.dirfdPath ⟨ht, hd, he, hp⟩
  cases hta : a.todo with
  | nil =>
    have htb : b.todo = [] := by rw [← ht]; exact hta
    rw [resolveStep_nil fs ex a hta, resolveStep_nil fs ex b htb]
    refine ⟨fun a' ha' => (by cases ha'), fun r hr => ?_⟩
    cases hr
    exact ⟨_, rfl, by simp [hd]⟩
  | cons new rest =>
    have htb : b.todo = new :: rest := by rw [← ht]; exact hta
    by_cases hdot : new = "."
    · subst hdot
      rw [resolveStep_dot fs ex a rest hta, resolveStep_dot fs ex b rest htb]
      refine ⟨fun a' ha' => ?_, fun r hr => (by cases hr)⟩
      cases ha'
      exact ⟨_, rfl, rfl, hd, he, hp⟩
    · by_cases hdd : new = ".."
      · subst hdd
        rw [resolveStep_dotdot fs ex a rest hta, resolveStep_dotdot fs ex b rest htb]
        exact advanceCursor_obsEq fs ex _ _ ".." ⟨rfl, by simp [hd], he, hp⟩
      · cases hrl : readlinkat fs (dirfdPath a) new with
        | error e =>
          have hrlb : readlinkat fs (dirfdPath b) new = Except.error e := by
            rw [← hpath]; exact hrl
          by_cases hc : (ex = true ∨ rest ≠ []) ∧ e ≠ Errno.EINVAL
          · rw [resolveStep_rl_err_fatal fs ex a new rest e hta hdot hdd hrl hc,
                resolveStep_rl_err_fatal fs ex b new rest e htb hdot hdd hrlb hc]
            refine ⟨fun a' ha' => (by cases ha'), fun r hr => ?_⟩
            cases hr
            exact ⟨_, rfl, by simp⟩
          · by_cases hbrk : e = Errno.EINVAL ∧ rest = []
            · rw [resolveStep_rl_err_brk fs ex a new rest e hta hdot hdd hrl hc hbrk,
                  resolveStep_rl_err_brk fs ex b new rest e htb hdot hdd hrlb hc hbrk]
              refine ⟨fun a' ha' => (by cases ha'), fun r hr => ?_⟩
              cases hr
              exact ⟨_, rfl, by simp [hd]⟩
            · rw [resolveStep_rl_err_adv fs ex a new rest e hta hdot hdd hrl hc hbrk,
                  resolveStep_rl_err_adv fs ex b new rest e htb hdot hdd hrlb hc hbrk]
              exact advanceCursor_obsEq fs ex _ _ new ⟨rfl, by simp [hd], rfl, hp⟩
        | ok t =>
          have hrlb : readlinkat fs (dirfdPath b) new = Except.ok t := by
            rw [← hpath]; exact hrl
          by_cases hlen : t.length > 4095
          · rw [resolveStep_rl_ok_long fs ex a new rest t hta hdot hdd hrl hlen,
                resolveStep_rl_ok_long fs ex b new rest t htb hdot hdd hrlb hlen]
            refine ⟨fun a' ha' => (by cases ha'), fun r hr => ?_⟩
            cases hr
            exact ⟨_, rfl, by simp [he]⟩
          · by_cases h0 : t.length = 0
            · rw [resolveStep_rl_ok_empty fs ex a new rest t hta hdot hdd hrl hlen h0,
                  resolveStep_rl_ok_empty fs ex b new rest t htb hdot hdd hrlb hlen h0]
              exact advanceCursor_obsEq fs ex _ _ ".." ⟨rfl, hd, he, hp⟩
            · by_cases habs : t.data.head? = some '/'
              · rw [resolveStep_rl_ok_abs fs ex a new rest t hta hdot hdd hrl hlen h0 habs,
                    resolveStep_rl_ok_abs fs ex b new rest t htb hdot hdd hrlb hlen h0 habs]
                refine ⟨fun a' ha' => ?_, fun r hr => (by cases hr)⟩
                cases ha'
                exact ⟨_, rfl, by simp, by simp, by simp [he], by simp⟩
              · rw [resolveStep_rl_ok_rel fs ex a new rest t hta hdot hdd hrl hlen h0 habs,
                    resolveStep_rl_ok_rel fs ex b new rest t htb hdot hdd hrlb hlen h0 habs]
                refine ⟨fun a' ha' => ?_, fun r hr => (by cases hr)⟩
                cases ha'
                exact ⟨_, rfl, rfl, hd, he, hp⟩

theorem resolveLoop_obsEq (fs : Fs) (ex : Bool) :
    ∀ (n : Nat) (a b : St), ObsEq a b →
      (resolveLoop fs ex n a).1 = (resolveLoop fs ex n b).1 := by
  intro n
  induction n with
  | zero =>
    intro a b h
    obtain ⟨ht, hd, he, hp⟩ := h
    cases hta : a.todo with
    | nil =>
      have htb : b.todo = [] := by rw [← ht]; exact hta
      rw [resolveLoop_todo_nil fs ex 0 a hta, resolveLoop_todo_nil fs ex 0 b htb]
      simp [hd]
    | cons c rest =>
      have htb : b.todo = c :: rest := by rw [← ht]; exact hta
      rw [resolveLoop_zero_cons fs ex a c rest hta, resolveLoop_zero_cons fs ex b c rest htb]
      simp
  | succ n ih =>
    intro a b h
    have him : ObsEq (iterMark a) (iterMark b) := h
    obtain ⟨ht, hd, he, hp⟩ := h
    cases hta : a.todo with
    | nil =>
      have htb : b.todo = [] := by rw [← ht]; exact hta
      rw [resolveLoop_todo_nil fs ex (n + 1) a hta, resolveLoop_todo_nil fs ex (n + 1) b htb]
      simp [hd]
    | cons c rest =>
      have htb : b.todo = c :: rest := by rw [← ht]; exact hta
      rw [resolveLoop_succ_cons fs ex n a c rest hta, resolveLoop_succ_cons fs ex n b c rest htb]
      cases hs : resolveStep fs ex (iterMark a) with
      | cont a' =>
        obtain ⟨b', hb', hObs⟩ := (resolveStep_obsEq fs ex _ _ him).1 a' hs
        rw [hb']
        exact ih a' b' hObs
      | finished r =>
        obtain ⟨r', hr', heq⟩ := (resolveStep_obsEq fs ex _ _ him).2 r hs
        rw [hr']
        exact heq

/-! ### Fuel insensitivity: extra budget does not change a non-`ELOOP` outcome -/

theorem resolveLoop_mono (fs : Fs) (ex : Bool) :
    ∀ (n : Nat) (st : St), (resolveLoop fs ex n st).1 ≠ Except.error Errno.ELOOP →
      resolveLoop fs ex (n + 1) st = resolveLoop fs ex n st := by
  intro n
  induction n with
  | zero =>
    intro st hne
    cases hst : st.todo with
    | nil => rw [resolveLoop_todo_nil fs ex 1 st hst, resolveLoop_todo_nil fs ex 0 st hst]
    | cons c rest =>
      exfalso
      apply hne
      rw [resolveLoop_zero_cons fs ex st c rest hst]
      simp
  | succ n ih =>
    intro st hne
    cases hst : st.todo with
    | nil =>
      rw [resolveLoop_todo_nil fs ex (n + 2) st hst, resolveLoop_todo_nil fs ex (n + 1) st hst]
    | cons c rest =>
      rw [resolveLoop_succ_cons fs ex (n + 1) st c rest hst,
          resolveLoop_succ_cons fs ex n st c rest hst]
      rw [resolveLoop_succ_cons fs ex n st c rest hst] at hne
      cases hs : resolveStep fs ex (iterMark st) with
      | cont st' =>
        rw [hs] at hne
        exact ih st' hne
      | finished r => rfl

/-! ### The handle ledger invariant -/

/-- Ledger invariant of a state between operations: the live set is exactly
the cursor's handle (or empty for fd `-1`), handle ids are below the fresh
counter, at most two handles were ever simultaneously open, and every loop
iteration so far started with exactly one open handle. -/
def CoreInv (st : St) : Prop :=
  (∀ h, st.dirfd = some h → st.live = [h.id] ∧ h.id < st.nextId) ∧
  (st.dirfd = none → st.live = []) ∧ st.maxLive ≤ 2 ∧ st.iterOk = true

/-- Full loop invariant: the cursor can only be fd `-1` once the pending list
is empty. -/
def HInv (st : St) : Prop := CoreInv st ∧ (st.todo ≠ [] → st.dirfd ≠ none)

/-- What holds of any finished result produced under the invariant. -/
def FinInv (r : Except Errno String × St) : Prop :=
  r.2.live = [] ∧ r.2.maxLive ≤ 2 ∧ r.2.iterOk = true ∧ r.2.todo = [] ∧ r.2.done = [] ∧
  (∀ e, r.1 = Except.error e → r.2.errno = e)

theorem closeEv_dirfd_live (st : St) (hc : CoreInv st) : (closeEv st st.dirfd).live = [] := by
  obtain ⟨hs, hn, -, -⟩ := hc
  cases hd : st.dirfd with
  | none => simpa [closeEv] using hn hd
  | some h =>
    obtain ⟨hl, -⟩ := hs h hd
    simp [closeEv, hl]

theorem errorExit_fin (st : St) (hc : CoreInv st) : FinInv (errorExit st) := by
  refine ⟨?_, ?_, ?_, rfl, rfl, ?_⟩
  · show (closeEv st st.dirfd).live = []
    exact closeEv_dirfd_live st hc
  · simpa [errorExit] using hc.2.2.1
  · simpa [errorExit] using hc.2.2.2
  · intro e he
    simp [errorExit] at he ⊢
    exact he

theorem finishOk_fin (st : St) (hc : CoreInv st) : FinInv (finishOk st) := by
  refine ⟨?_, ?_, ?_, rfl, rfl, ?_⟩
  · show (closeEv st st.dirfd).live = []
    exact closeEv_dirfd_live st hc
  · simpa [finishOk] using hc.2.2.1
  · simpa [finishOk] using hc.2.2.2
  · intro e he
    simp [finishOk] at he

theorem advanceCursor_inv (fs : Fs) (ex : Bool) (st : St) (s : String) (hc : CoreInv st) :
    (∀ st', advanceCursor fs ex st s = StepRes.cont st' → HInv st') ∧
    (∀ r, advanceCursor fs ex st s = StepRes.finished r → FinInv r) := by
  obtain ⟨hs, hn, hm, hi⟩ := hc
  cases hop : openat fs (dirfdPath st) s with
  | ok p =>
    rw [advanceCursor_ok fs ex st s p hop]
    refine ⟨fun st' hst' => ?_, fun r hr => (by cases hr)⟩
    cases hst'
    constructor
    · refine ⟨?_, ?_, ?_, ?_⟩
      · intro h hh
        simp [openedHandle] at hh
        cases hd : st.dirfd with
        | none =>
          have hl := hn hd
          constructor
          · simp [closeEv, openEv, hd, hl, ← hh]
          · simp [openEv, ← hh]
        | some hOld =>
          obtain ⟨hl, hlt⟩ := hs hOld hd
          have hne : ¬(st.nextId == hOld.id) = true := by
            simp
            omega
          constructor
          · simp [closeEv, openEv, hd, hl, ← hh]
            rw [List.erase_cons_tail hne, List.erase_cons_head]
          · simp [openEv, ← hh]
      · intro hcon
        simp at hcon
      · have : (openEv st).maxLive = max st.maxLive (st.live.length + 1) := rfl
        simp [this]
        refine ⟨hm, ?_⟩
        cases hd : st.dirfd with
        | none => simp [hn hd]
        | some hOld => simp [(hs hOld hd).1]
      · simpa using hi
    · intro _
      simp
  | error e =>
    by_cases hcond : ex = true ∨ st.todo ≠ [] ∨ e ≠ Errno.ENOENT
    · rw [advanceCursor_err_fatal fs ex st s e hop hcond]
      refine ⟨fun st' hst' => (by cases hst'), fun r hr => ?_⟩
      cases hr
      exact errorExit_fin _ ⟨by simpa using hs, by simpa using hn, by simpa using hm,
                              by simpa using hi⟩
    · rw [advanceCursor_err_tol fs ex st s e hop hcond]
      push_neg at hcond
      refine ⟨fun st' hst' => ?_, fun r hr => (by cases hr)⟩
      cases hst'
      refine ⟨⟨?_, ?_, ?_, ?_⟩, ?_⟩
      · intro h hh
        simp at hh
      · intro _
        show (closeEv { st with errno := e } st.dirfd).live = []
        cases hd : st.dirfd with
        | none => simpa [closeEv, hd] using hn hd
        | some hOld =>
          have := (hs hOld hd).1
          simp [closeEv, hd, this]
      · simpa using hm
      · simpa using hi
      · intro hcon
        exfalso
        apply hcon
        simp [hcond.2.1]

theorem resolveStep_inv (fs : Fs) (ex : Bool) (st : St) (h : HInv st) :
    (∀ st', resolveStep fs ex st = StepRes.cont st' → HInv st') ∧
    (∀ r, resolveStep fs ex st = StepRes.finished r → FinInv r) := by
  obtain ⟨⟨hs, hn, hm, hi⟩, htd⟩ := h
  cases hta : st.todo with
  | nil =>
    rw [resolveStep_nil fs ex st hta]
    refine ⟨fun st' hst' => (by cases hst'), fun r hr => ?_⟩
    cases hr
    exact finishOk_fin st ⟨hs, hn, hm, hi⟩
  | cons new rest =>
    have hfd : st.dirfd ≠ none := htd (by rw [hta]; simp)
    by_cases hdot : new = "."
    · subst hdot
      rw [resolveStep_dot fs ex st rest hta]
      refine ⟨fun st' hst' => ?_, fun r hr => (by cases hr)⟩
      cases hst'
      exact ⟨⟨hs, hn, hm, hi⟩, fun _ => hfd⟩
    · by_cases hdd : new = ".."
      · subst hdd
        rw [resolveStep_dotdot fs ex st rest hta]
        exact advanceCursor_inv fs ex _ ".." ⟨hs, hn, hm, hi⟩
      · cases hrl : readlinkat fs (dirfdPath st) new with
        | error e =>
          by_cases hc : (ex = true ∨ rest ≠ []) ∧ e ≠ Errno.EINVAL
          · rw [resolveStep_rl_err_fatal fs ex st new rest e hta hdot hdd hrl hc]
            refine ⟨fun st' hst' => (by cases hst'), fun r hr => ?_⟩
            cases hr
            exact errorExit_fin _ ⟨hs, hn, hm, hi⟩
          · by_cases hbrk : e = Errno.EINVAL ∧ rest = []
            · rw [resolveStep_rl_err_brk fs ex st new rest e hta hdot hdd hrl hc hbrk]
              refine ⟨fun st' hst' => (by cases hst'), fun r hr => ?_⟩
              cases hr
              exact finishOk_fin _ ⟨hs, hn, hm, hi⟩
            · rw [resolveStep_rl_err_adv fs ex st new rest e hta hdot hdd hrl hc hbrk]
              exact advanceCursor_inv fs ex _ new ⟨hs, hn, hm, hi⟩
        | ok t =>
          by_cases hlen : t.length > 4095
          · rw [resolveStep_rl_ok_long fs ex st new rest t hta hdot hdd hrl hlen]
            refine ⟨fun st' hst' => (by cases hst'), fun r hr => ?_⟩
            cases hr
            exact errorExit_fin _ ⟨hs, hn, hm, hi⟩
          · by_cases h0 : t.length = 0
            · rw [resolveStep_rl_ok_empty fs ex st new rest t hta hdot hdd hrl hlen h0]
              exact advanceCursor_inv fs ex _ ".." ⟨hs, hn, hm, hi⟩
            · by_cases habs : t.data.head? = some '/'
              · rw [resolveStep_rl_ok_abs fs ex st new rest t hta hdot hdd hrl hlen h0 habs]
                refine ⟨fun st' hst' => ?_, fun r hr => (by cases hr)⟩
                cases hst'
                cases hd : st.dirfd with
                | none => exact absurd hd hfd
                | some hOld =>
                  have hl := (hs hOld hd).1
                  refine ⟨⟨?_, ?_, ?_, ?_⟩, ?_⟩
                  · intro h hh
                    simp at hh
                    constructor
                    · simp [openEv, closeEv, hd, hl, ← hh]
                    · simp [openEv, ← hh]
                  · intro hcon
                    simp at hcon
                  · simp [openEv, closeEv, hl, Nat.max_le]
                    omega
                  · simpa [openEv] using hi
                  · intro _
                    simp
              · rw [resolveStep_rl_ok_rel fs ex st new rest t hta hdot hdd hrl hlen h0 habs]
                refine ⟨fun st' hst' => ?_, fun r hr => (by cases hr)⟩
                cases hst'
                exact ⟨⟨hs, hn, hm, hi⟩, fun _ => hfd⟩

theorem iterMark_HInv (st : St) (h : HInv st) (hne : st.todo ≠ []) : HInv (iterMark st) := by
  obtain ⟨⟨hs, hn, hm, hi⟩, htd⟩ := h
  have hfd : st.dirfd ≠ none := htd hne
  have hlive : st.live.length = 1 := by
    cases hd : st.dirfd with
    | none => exact absurd hd hfd
    | some hOld => simp [(hs hOld hd).1]
  refine ⟨⟨hs, hn, hm, ?_⟩, htd⟩
  show (st.iterOk && (st.live.length == 1)) = true
  simp [hi, hlive]

theorem resolveLoop_inv (fs : Fs) (ex : Bool) :
    ∀ (n : Nat) (st : St), HInv st → FinInv (resolveLoop fs ex n st) := by
  intro n
  induction n with
  | zero =>
    intro st h
    cases hst : st.todo with
    | nil =>
      rw [resolveLoop_todo_nil fs ex 0 st hst]
      exact finishOk_fin st h.1
    | cons c rest =>
      rw [resolveLoop_zero_cons fs ex st c rest hst]
      have him := iterMark_HInv st h (by rw [hst]; simp)
      obtain ⟨⟨hs, hn, hm, hi⟩, -⟩ := him
      exact errorExit_fin _ ⟨hs, hn, hm, hi⟩
  | succ n ih =>
    intro st h
    cases hst : st.todo with
    | nil =>
      rw [resolveLoop_todo_nil fs ex (n + 1) st hst]
      exact finishOk_fin st h.1
    | cons c rest =>
      rw [resolveLoop_succ_cons fs ex n st c rest hst]
      have him := iterMark_HInv st h (by rw [hst]; simp)
      cases hsr : resolveStep fs ex (iterMark st) with
      | cont st' => exact ih st' ((resolveStep_inv fs ex _ him).1 st' hsr)
      | finished r => exact (resolveStep_inv fs ex _ him).2 r hsr

/-! ### All components flowing through the loop are well-formed -/

/-- Both lists hold only non-empty, separator-free component names. -/
def GoodSt (st : St) : Prop :=
  (∀ c ∈ st.todo, goodComp c) ∧ (∀ c ∈ st.done, goodComp c)

theorem advanceCursor_good (fs : Fs) (ex : Bool) (st : St) (s : String) (h : GoodSt st) :
    (∀ st', advanceCursor fs ex st s = StepRes.cont st' → GoodSt st') ∧
    (∀ r, advanceCursor fs ex st s = StepRes.finished r →
      ∀ str, r.1 = Except.ok str → ∃ dn, (∀ c ∈ dn, goodComp c) ∧ str = assemble dn) := by
  obtain ⟨ht, hd⟩ := h
  cases hop : openat fs (dirfdPath st) s with
  | ok p =>
    rw [advanceCursor_ok fs ex st s p hop]
    refine ⟨fun st' hst' => ?_, fun r hr => (by cases hr)⟩
    cases hst'
    exact ⟨by simpa using ht, by simpa using hd⟩
  | error e =>
    by_cases hcond : ex = true ∨ st.todo ≠ [] ∨ e ≠ Errno.ENOENT
    · rw [advanceCursor_err_fatal fs ex st s e hop hcond]
      refine ⟨fun st' hst' => (by cases hst'), fun r hr => ?_⟩
      cases hr
      intro str hstr
      simp at hstr
    · rw [advanceCursor_err_tol fs ex st s e hop hcond]
      refine ⟨fun st' hst' => ?_, fun r hr => (by cases hr)⟩
      cases hst'
      exact ⟨by simpa using ht, by simpa using hd⟩

theorem resolveStep_good (fs : Fs) (ex : Bool) (st : St) (h : GoodSt st) :
    (∀ st', resolveStep fs ex st = StepRes.cont st' → GoodSt st') ∧
    (∀ r, resolveStep fs ex st = StepRes.finished r →
      ∀ str, r.1 = Except.ok str → ∃ dn, (∀ c ∈ dn, goodComp c) ∧ str = assemble dn) := by
  obtain ⟨ht, hd⟩ := h
  cases hta : st.todo with
  | nil =>
    rw [resolveStep_nil fs ex st hta]
    refine ⟨fun st' hst' => (by cases hst'), fun r hr => ?_⟩
    cases hr
    intro str hstr
    simp at hstr
    exact ⟨st.done, hd, hstr.symm⟩
  | cons new rest =>
    have hnew : goodComp new := ht new (by rw [hta]; exact List.mem_cons_self new rest)
    have hrest : ∀ c ∈ rest, goodComp c := fun c hc => ht c (by rw [hta]; exact List.mem_cons_of_mem new hc)
    by_cases hdot : new = "."
    · subst hdot
      rw [resolveStep_dot fs ex st rest hta]
      refine ⟨fun st' hst' => ?_, fun r hr => (by cases hr)⟩
      cases hst'
      exact ⟨by simpa using hrest, by simpa using hd⟩
    · by_cases hdd : new = ".."
      · subst hdd
        rw [resolveStep_dotdot fs ex st rest hta]
        refine advanceCursor_good fs ex _ ".." ⟨by simpa using hrest, ?_⟩
        intro c hc
        exact hd c (by simpa using List.mem_of_mem_tail hc)
      · cases hrl : readlinkat fs (dirfdPath st) new with
        | error e =>
          by_cases hc : (ex = true ∨ rest ≠ []) ∧ e ≠ Errno.EINVAL
          · rw [resolveStep_rl_err_fatal fs ex st new rest e hta hdot hdd hrl hc]
            refine ⟨fun st' hst' => (by cases hst'), fun r hr => ?_⟩
            cases hr
            intro str hstr
            simp at hstr
          · by_cases hbrk : e = Errno.EINVAL ∧ rest = []
            · rw [resolveStep_rl_err_brk fs ex st new rest e hta hdot hdd hrl hc hbrk]
              refine ⟨fun st' hst' => (by cases hst'), fun r hr => ?_⟩
              cases hr
              intro str hstr
              simp at hstr
              refine ⟨new :: st.done, ?_, hstr.symm⟩
              intro c hcm
              rcases List.mem_cons.mp hcm with hcm | hcm
              · exact hcm ▸ hnew
              · exact hd c hcm
            · rw [resolveStep_rl_err_adv fs ex st new rest e hta hdot hdd hrl hc hbrk]
              refine advanceCursor_good fs ex _ new ⟨by simpa using hrest, ?_⟩
              intro c hcm
              simp at hcm
              rcases hcm with hcm | hcm
              · exact hcm ▸ hnew
              · exact hd c hcm
        | ok t =>
          by_cases hlen : t.length > 4095
          · rw [resolveStep_rl_ok_long fs ex st new rest t hta hdot hdd hrl hlen]
            refine ⟨fun st' hst' => (by cases hst'), fun r hr => ?_⟩
            cases hr
            intro str hstr
            simp at hstr
          · by_cases h0 : t.length = 0
            · rw [resolveStep_rl_ok_empty fs ex st new rest t hta hdot hdd hrl hlen h0]
              exact advanceCursor_good fs ex _ ".." ⟨by simpa using hrest, by simpa using hd⟩
            · by_cases habs : t.data.head? = some '/'
              · rw [resolveStep_rl_ok_abs fs ex st new rest t hta hdot hdd hrl hlen h0 habs]
                refine ⟨fun st' hst' => ?_, fun r hr => (by cases hr)⟩
                cases hst'
                constructor
                · intro c hcm
                  simp at hcm
                  rcases hcm with hcm | hcm
                  · exact splitpath_good t c hcm
                  · exact hrest c hcm
                · intro c hcm
                  cases hfd : st.dirfd <;> rw [hfd] at hcm <;>
                    simp [openEv, closeEv] at hcm
              · rw [resolveStep_rl_ok_rel fs ex st new rest t hta hdot hdd hrl hlen h0 habs]
                refine ⟨fun st' hst' => ?_, fun r hr => (by cases hr)⟩
                cases hst'
                constructor
                · intro c hcm
                  simp at hcm
                  rcases hcm with hcm | hcm
                  · exact splitpath_good t c hcm
                  · exact hrest c hcm
                · exact by simpa using hd

theorem resolveLoop_good (fs : Fs) (ex : Bool) :
    ∀ (n : Nat) (st : St), GoodSt st → ∀ s, (resolveLoop fs ex n st).1 = Except.ok s →
      ∃ dn, (∀ c ∈ dn, goodComp c) ∧ s = assemble dn := by
  intro n
  induction n with
  | zero =>
    intro st h s hs
    cases hst : st.todo with
    | nil =>
      rw [resolveLoop_todo_nil fs ex 0 st hst] at hs
      simp at hs
      exact ⟨st.done, h.2, hs.symm⟩
    | cons c rest =>
      rw [resolveLoop_zero_cons fs ex st c rest hst] at hs
      simp at hs
  | succ n ih =>
    intro st h s hs
    cases hst : st.todo with
    | nil =>
      rw [resolveLoop_todo_nil fs ex (n + 1) st hst] at hs
      simp at hs
      exact ⟨st.done, h.2, hs.symm⟩
    | cons c rest =>
      rw [resolveLoop_succ_cons fs ex n st c rest hst] at hs
      have him : GoodSt (iterMark st) := h
      cases hsr : resolveStep fs ex (iterMark st) with
      | cont st' =>
        rw [hsr] at hs
        exact ih st' ((resolveStep_good fs ex _ him).1 st' hsr) s hs
      | finished r =>
        rw [hsr] at hs
        exact (resolveStep_good fs ex _ him).2 r hsr s hs

/-! ### Relating lookups and opens on the same entry -/

theorem openat_of_readlinkat_enoent (fs : Fs) (p : List String) (name : String)
    (h : readlinkat fs p name = Except.error Errno.ENOENT) (hne : name ≠ "..") :
    openat fs p name = Except.error Errno.ENOENT := by
  unfold readlinkat at h
  unfold openat
  cases hres : resolveHandle fs p with
  | none => simp [hres]
  | some node =>
    rw [hres] at h
    cases node with
    | dir cs =>
      simp only at h
      simp only [hres]
      rw [if_neg hne]
      cases hfc : findChild cs name with
      | none => simp [hfc]
      | some c =>
        rw [hfc] at h
        cases c <;> simp at h
    | file => simp at h
    | symlink t => simp at h

theorem readlinkat_error_other (fs : Fs) (p : List String) (name : String) (e : Errno)
    (h : readlinkat fs p name = Except.error e)
    (h1 : e ≠ Errno.ENOENT) (h2 : e ≠ Errno.EINVAL) :
    e = Errno.ENOTDIR ∧ openat fs p name = Except.error Errno.ENOTDIR := by
  unfold readlinkat at h
  unfold openat
  cases hres : resolveHandle fs p with
  | none =>
    rw [hres] at h
    simp at h
    exact absurd h.symm h1
  | some node =>
    rw [hres] at h
    cases node with
    | dir cs =>
      simp only at h
      cases hfc : findChild cs name with
      | none =>
        rw [hfc] at h
        simp at h
        exact absurd h.symm h1
      | some c =>
        rw [hfc] at h
        cases c <;> simp at h <;> exact absurd h.symm h2
    | file =>
      simp at h
      simp [hres]
      exact h.symm
    | symlink t =>
      simp at h
      simp [hres]
      exact h.symm

/-! ### Unfolding the top-level entry point without forcing evaluation -/

theorem initSt_def (td : List String) (e0 : Errno) :
    initSt td e0 = ⟨td, [], some ⟨0, []⟩, e0, [0], 1, 1, true⟩ := rfl

theorem xabspathFull_unfold_abs (fs : Fs) (cwd : String) (e0 : Errno) (path : String)
    (ex : Bool) (h : pathIsAbs path = true) :
    xabspathFull fs cwd e0 path ex = resolveLoop fs ex 9999 (initSt (splitpath path) e0) := by
  unfold xabspathFull
  rw [if_pos h]

theorem xabspathFull_unfold_rel (fs : Fs) (cwd : String) (e0 : Errno) (path : String)
    (ex : Bool) (h : ¬pathIsAbs path = true) :
    xabspathFull fs cwd e0 path ex =
      resolveLoop fs ex 9999 (initSt (splitpath cwd ++ splitpath path) e0) := by
  unfold xabspathFull
  rw [if_neg h]

theorem xabspath_unfold_abs (fs : Fs) (cwd : String) (e0 : Errno) (path : String)
    (ex : Bool) (h : pathIsAbs path = true) :
    xabspath fs cwd e0 path ex = (resolveLoop fs ex 9999 (initSt (splitpath path) e0)).1 := by
  unfold xabspath
  rw [xabspathFull_unfold_abs fs cwd e0 path ex h]

theorem xabspath_unfold_rel (fs : Fs) (cwd : String) (e0 : Errno) (path : String)
    (ex : Bool) (h : ¬pathIsAbs path = true) :
    xabspath fs cwd e0 path ex =
      (resolveLoop fs ex 9999 (initSt (splitpath cwd ++ splitpath path) e0)).1 := by
  unfold xabspath
  rw [xabspathFull_unfold_rel fs cwd e0 path ex h]

/-! ### Claim C2: bounded iteration and the symlink cycle -/

/-- The two-link cycle of the spec: `/a -> /b`, `/b -> /a`. -/
def cycleFs : Fs := [("a", FsNode.symlink "/b"), ("b", FsNode.symlink "/a")]

theorem cycleFs_loop (ex : Bool) :
    ∀ (n : Nat) (nm : String), (nm = "a" ∨ nm = "b") →
    ∀ (dn : List String) (i : Nat) (er : Errno) (l : List Nat) (ni ml : Nat) (io : Bool),
      (resolveLoop cycleFs ex n ⟨[nm], dn, some ⟨i, []⟩, er, l, ni, ml, io⟩).1 =
        Except.error Errno.ELOOP := by
  intro n
  induction n with
  | zero =>
    intro nm hnm dn i er l ni ml io
    rw [resolveLoop_zero_cons cycleFs ex _ nm [] rfl]
    simp
  | succ n ih =>
    intro nm hnm dn i er l ni ml io
    rw [resolveLoop_succ_cons cycleFs ex n _ nm [] rfl]
    rcases hnm with h | h <;> subst h
    · have hstep := resolveStep_rl_ok_abs cycleFs ex
        (iterMark ⟨["a"], dn, some ⟨i, []⟩, er, l, ni, ml, io⟩) "a" [] "/b"
        rfl (by decide) (by decide) rfl (by decide) (by decide) rfl
      rw [hstep]
      exact ih "b" (Or.inr rfl) [] ni er _ _ _ _
    · have hstep := resolveStep_rl_ok_abs cycleFs ex
        (iterMark ⟨["b"], dn, some ⟨i, []⟩, er, l, ni, ml, io⟩) "b" [] "/a"
        rfl (by decide) (by decide) rfl (by decide) (by decide) rfl
      rw [hstep]
      exact ih "a" (Or.inl rfl) [] ni er _ _ _ _

/-- C2: `xabspath` terminates on every input: the loop is bounded by the
iteration counter initialized to 9999 and decremented once per pending
component consumed; an exhausted counter fails with `errno = ELOOP` (never
an infinite loop), and in particular the symlink cycle `/a -> /b`,
`/b -> /a` fails with `ELOOP` for both values of `exact`. -/
theorem spec_C2 :
    (∀ (fs : Fs) (ex : Bool) (c : String) (rest dn : List String) (dfd : Option Handle)
        (er : Errno) (l : List Nat) (ni ml : Nat) (io : Bool),
      (resolveLoop fs ex 0 ⟨c :: rest, dn, dfd, er, l, ni, ml, io⟩).1 =
        Except.error Errno.ELOOP)
    ∧ (∀ (cwd : String) (e0 : Errno) (ex : Bool),
        xabspath cycleFs cwd e0 "/a" ex = Except.error Errno.ELOOP) := by
  constructor
  · intro fs ex c rest dn dfd er l ni ml io
    rw [resolveLoop_zero_cons fs ex _ c rest rfl]
    simp
  · intro cwd e0 ex
    rw [xabspath_unfold_abs cycleFs cwd e0 "/a" ex rfl]
    have hsp : splitpath "/a" = ["a"] := rfl
    rw [hsp, initSt_def]
    exact cycleFs_loop ex 9999 "a" (Or.inl rfl) [] 0 e0 [0] 1 1 true

/-! ### Compound branch lemmas (one whole iteration at a time) -/

theorem resolveStep_notlink_tol (fs : Fs) (st : St) (new : String)
    (h : st.todo = [new]) (h1 : new ≠ ".") (h2 : new ≠ "..")
    (hrl : readlinkat fs (dirfdPath st) new = Except.error Errno.ENOENT) :
    resolveStep fs false st =
      StepRes.cont { closeEv { st with todo := [], errno := Errno.ENOENT, done := new :: st.done } st.dirfd with dirfd := none } := by
  rw [resolveStep_rl_err_adv fs false st new [] Errno.ENOENT h h1 h2 hrl (by simp) (by simp)]
  exact advanceCursor_err_tol fs false _ new Errno.ENOENT
    (openat_of_readlinkat_enoent fs (dirfdPath st) new hrl h2) (by simp)

theorem resolveStep_notlink_adv (fs : Fs) (ex : Bool) (st : St) (new : String)
    (rest q : List String) (e : Errno)
    (h : st.todo = new :: rest) (h1 : new ≠ ".") (h2 : new ≠ "..")
    (hrl : readlinkat fs (dirfdPath st) new = Except.error e)
    (hnc : ¬((ex = true ∨ rest ≠ []) ∧ e ≠ Errno.EINVAL))
    (hnbrk : ¬(e = Errno.EINVAL ∧ rest = []))
    (hop : openat fs (dirfdPath st) new = Except.ok q) :
    resolveStep fs ex st =
      StepRes.cont { closeEv (openEv { st with todo := rest, errno := e, done := new :: st.done }) st.dirfd with dirfd := some ⟨st.nextId, q⟩ } := by
  rw [resolveStep_rl_err_adv fs ex st new rest e h h1 h2 hrl hnc hnbrk]
  exact advanceCursor_ok fs ex _ new q hop

theorem resolveStep_notlink_openfail (fs : Fs) (ex : Bool) (st : St) (new : String)
    (rest : List String) (e e2 : Errno)
    (h : st.todo = new :: rest) (h1 : new ≠ ".") (h2 : new ≠ "..")
    (hrl : readlinkat fs (dirfdPath st) new = Except.error e)
    (hnc : ¬((ex = true ∨ rest ≠ []) ∧ e ≠ Errno.EINVAL))
    (hnbrk : ¬(e = Errno.EINVAL ∧ rest = []))
    (hop : openat fs (dirfdPath st) new = Except.error e2)
    (hc2 : ex = true ∨ rest ≠ [] ∨ e2 ≠ Errno.ENOENT) :
    resolveStep fs ex st =
      StepRes.finished (errorExit { st with todo := rest, errno := e2, done := new :: st.done }) := by
  rw [resolveStep_rl_err_adv fs ex st new rest e h h1 h2 hrl hnc hnbrk]
  exact advanceCursor_err_fatal fs ex _ new e2 hop (by simpa [h] using hc2)

theorem resolveStep_dotdot_ok (fs : Fs) (ex : Bool) (st : St) (rest q : List String)
    (h : st.todo = ".." :: rest)
    (hop : openat fs (dirfdPath st) ".." = Except.ok q) :
    resolveStep fs ex st =
      StepRes.cont { closeEv (openEv { st with todo := rest, done := st.done.tail }) st.dirfd with dirfd := some ⟨st.nextId, q⟩ } := by
  rw [resolveStep_dotdot fs ex st rest h]
  exact advanceCursor_ok fs ex _ ".." q hop

theorem resolveStep_dotdot_openfail (fs : Fs) (ex : Bool) (st : St) (rest : List String)
    (e2 : Errno) (h : st.todo = ".." :: rest)
    (hop : openat fs (dirfdPath st) ".." = Except.error e2)
    (hc2 : ex = true ∨ rest ≠ [] ∨ e2 ≠ Errno.ENOENT) :
    resolveStep fs ex st =
      StepRes.finished (errorExit { st with todo := rest, done := st.done.tail, errno := e2 }) := by
  rw [resolveStep_dotdot fs ex st rest h]
  exact advanceCursor_err_fatal fs ex _ ".." e2 hop (by simpa [h] using hc2)

/-! ### Claim C1: a missing final component -/

/-- C1: at the terminal pending component, when the lookup fails with
`ENOENT` ("does not exist", all earlier components having resolved normally
to reach this state), `xabspath` with `exact` on returns NULL with that
errno, while with `exact` off it succeeds and the canonical result is the
assembly of the literal final component onto the resolved prefix — in
particular the result string ends with the literal component name; any
lookup error other than `ENOENT` (and other than `EINVAL`, which means the
component exists) is fatal for both values of `exact`. -/
theorem spec_C1 (fs : Fs) (n i : Nat) (p dn : List String)
    (er : Errno) (l : List Nat) (ni ml : Nat) (io : Bool) (last : String) (e : Errno)
    (h1 : last ≠ ".") (h2 : last ≠ "..")
    (hrl : readlinkat fs p last = Except.error e) :
    (e = Errno.ENOENT →
      (resolveLoop fs true (n + 1) ⟨[last], dn, some ⟨i, p⟩, er, l, ni, ml, io⟩).1 =
          Except.error Errno.ENOENT
      ∧ (resolveLoop fs false (n + 1) ⟨[last], dn, some ⟨i, p⟩, er, l, ni, ml, io⟩).1 =
          Except.ok (assemble (last :: dn))
      ∧ ∃ pre, assemble (last :: dn) = pre ++ last)
    ∧ (e ≠ Errno.ENOENT → e ≠ Errno.EINVAL → ∀ ex : Bool,
        (resolveLoop fs ex (n + 1) ⟨[last], dn, some ⟨i, p⟩, er, l, ni, ml, io⟩).1 =
          Except.error e) := by
  constructor
  · intro he
    subst he
    refine ⟨?_, ?_, assemble_ends_with dn last⟩
    · rw [resolveLoop_succ_cons fs true n _ last [] rfl]
      have hrl' : readlinkat fs
          (dirfdPath (iterMark ⟨[last], dn, some ⟨i, p⟩, er, l, ni, ml, io⟩)) last =
          Except.error Errno.ENOENT := hrl
      rw [resolveStep_rl_err_fatal fs true _ last [] Errno.ENOENT rfl h1 h2 hrl'
            ⟨Or.inl rfl, by decide⟩]
      simp
    · rw [resolveLoop_succ_cons fs false n _ last [] rfl]
      have hrl' : readlinkat fs
          (dirfdPath (iterMark ⟨[last], dn, some ⟨i, p⟩, er, l, ni, ml, io⟩)) last =
          Except.error Errno.ENOENT := hrl
      rw [resolveStep_notlink_tol fs _ last rfl h1 h2 hrl']
      dsimp only
      rw [resolveLoop_todo_nil fs false n _ (by simp)]
      simp
  · intro hne hni ex
    obtain ⟨hnd, hopen⟩ := readlinkat_error_other fs p last e hrl hne hni
    subst hnd
    rw [resolveLoop_succ_cons fs ex n _ last [] rfl]
    have hrl' : readlinkat fs
        (dirfdPath (iterMark ⟨[last], dn, some ⟨i, p⟩, er, l, ni, ml, io⟩)) last =
        Except.error Errno.ENOTDIR := hrl
    cases ex with
    | true =>
      rw [resolveStep_rl_err_fatal fs true _ last [] Errno.ENOTDIR rfl h1 h2 hrl'
            ⟨Or.inl rfl, by decide⟩]
      simp
    | false =>
      rw [resolveStep_notlink_openfail fs false _ last [] Errno.ENOTDIR Errno.ENOTDIR rfl
            h1 h2 hrl' (by simp) (by simp) hopen (by simp)]
      simp

/-- C1 witness: in the filesystem `[("a", dir [])]`, looking up `"m"` at the
root fails with `ENOENT`; with `exact` on the call fails with `ENOENT`, with
`exact` off it returns the literal `"/m"`. -/
theorem spec_C1_witness :
    readlinkat [("a", FsNode.dir [])] [] "m" = Except.error Errno.ENOENT ∧
    (resolveLoop [("a", FsNode.dir [])] true 1
        ⟨["m"], [], some ⟨0, []⟩, Errno.EINVAL, [0], 1, 1, true⟩).1 =
      Except.error Errno.ENOENT ∧
    (resolveLoop [("a", FsNode.dir [])] false 1
        ⟨["m"], [], some ⟨0, []⟩, Errno.EINVAL, [0], 1, 1, true⟩).1 =
      Except.ok "/m" := by
  have h := spec_C1 [("a", FsNode.dir [])] 0 0 [] [] Errno.EINVAL [0] 1 1 true "m"
    Errno.ENOENT (by decide) (by decide) rfl
  obtain ⟨ha, -⟩ := h
  obtain ⟨hx, hy, -⟩ := ha rfl
  exact ⟨rfl, hx, by rw [hy]; rfl⟩

/-! ### Claim C6: an absent intermediate component is always fatal -/

/-- C6: a lookup failure is tolerated only for the very last pending
component: when a non-terminal component does not exist (`ENOENT` from the
symlink read, with at least one more component pending), the call fails
with `ENOENT` for both values of `exact`. -/
theorem spec_C6 (fs : Fs) (ex : Bool) (n i : Nat) (p dn : List String) (er : Errno)
    (l : List Nat) (ni ml : Nat) (io : Bool) (name r2 : String) (rest : List String)
    (h1 : name ≠ ".") (h2 : name ≠ "..")
    (hrl : readlinkat fs p name = Except.error Errno.ENOENT) :
    (resolveLoop fs ex (n + 1) ⟨name :: r2 :: rest, dn, some ⟨i, p⟩, er, l, ni, ml, io⟩).1 =
      Except.error Errno.ENOENT := by
  rw [resolveLoop_succ_cons fs ex n _ name (r2 :: rest) rfl]
  have hrl' : readlinkat fs
      (dirfdPath (iterMark ⟨name :: r2 :: rest, dn, some ⟨i, p⟩, er, l, ni, ml, io⟩)) name =
      Except.error Errno.ENOENT := hrl
  rw [resolveStep_rl_err_fatal fs ex _ name (r2 :: rest) Errno.ENOENT rfl h1 h2 hrl'
        ⟨Or.inr (by simp), by decide⟩]
  simp

/-- C6 witness: `"m"` does not exist at the root of `[("a", dir [])]`, and
with a further component `"x"` pending the resolution fails with `ENOENT`
for both `exact` values. -/
theorem spec_C6_witness :
    readlinkat [("a", FsNode.dir [])] [] "m" = Except.error Errno.ENOENT ∧
    (resolveLoop [("a", FsNode.dir [])] false 1
        ⟨["m", "x"], [], some ⟨0, []⟩, Errno.EINVAL, [0], 1, 1, true⟩).1 =
      Except.error Errno.ENOENT ∧
    (resolveLoop [("a", FsNode.dir [])] true 1
        ⟨["m", "x"], [], some ⟨0, []⟩, Errno.EINVAL, [0], 1, 1, true⟩).1 =
      Except.error Errno.ENOENT :=
  ⟨rfl,
   spec_C6 [("a", FsNode.dir [])] false 0 0 [] [] Errno.EINVAL [0] 1 1 true "m" "x" []
     (by decide) (by decide) rfl,
   spec_C6 [("a", FsNode.dir [])] true 0 0 [] [] Errno.EINVAL [0] 1 1 true "m" "x" []
     (by decide) (by decide) rfl⟩

/-! ### Claim C4: an absolute symlink target discards the resolved prefix -/

/-- C4: when the component under the cursor is a symlink whose target begins
with `/` (and fits the read buffer), the iteration continues with the
resolved list discarded (`done = []`) and the cursor reset to a handle on
the filesystem root, the target's components spliced onto the front of the
pending list; so only the new absolute chain can appear in the final
result. -/
theorem spec_C4 (fs : Fs) (ex : Bool) (n i : Nat) (p dn : List String) (er : Errno)
    (l : List Nat) (ni ml : Nat) (io : Bool) (new : String) (rest : List String) (t : String)
    (h1 : new ≠ ".") (h2 : new ≠ "..")
    (hrl : readlinkat fs p new = Except.ok t)
    (hlen : ¬(t.length > 4095)) (h0 : ¬(t.length = 0))
    (habs : t.data.head? = some '/') :
    resolveLoop fs ex (n + 1) ⟨new :: rest, dn, some ⟨i, p⟩, er, l, ni, ml, io⟩ =
      resolveLoop fs ex n ⟨splitpath t ++ rest, [], some ⟨ni, []⟩, er, ni :: l.erase i,
        ni + 1, max ml ((l.erase i).length + 1), io && (l.length == 1)⟩ := by
  rw [resolveLoop_succ_cons fs ex n _ new rest rfl]
  have hrl' : readlinkat fs
      (dirfdPath (iterMark ⟨new :: rest, dn, some ⟨i, p⟩, er, l, ni, ml, io⟩)) new =
      Except.ok t := hrl
  rw [resolveStep_rl_ok_abs fs ex _ new rest t rfl h1 h2 hrl' hlen h0 habs]
  rfl

/-- C4 witness: for `/s -> /x` over `[("s", symlink "/x"), ("x", dir [])]`,
the first iteration discards the resolved prefix `["junk"]` and restarts
from a root handle with the target's components in front. -/
theorem spec_C4_witness :
    readlinkat [("s", FsNode.symlink "/x"), ("x", FsNode.dir [])] [] "s" =
      Except.ok "/x" ∧
    resolveLoop [("s", FsNode.symlink "/x"), ("x", FsNode.dir [])] true 1
        ⟨["s"], ["junk"], some ⟨0, []⟩, Errno.EINVAL, [0], 1, 1, true⟩ =
      resolveLoop [("s", FsNode.symlink "/x"), ("x", FsNode.dir [])] true 0
        ⟨["x"], [], some ⟨1, []⟩, Errno.EINVAL, [1], 2, 1, true⟩ := by
  constructor
  · rfl
  · have h := spec_C4 [("s", FsNode.symlink "/x"), ("x", FsNode.dir [])] true 0 0 [] ["junk"]
      Errno.EINVAL [0] 1 1 true "s" [] "/x" (by decide) (by decide) rfl (by decide) (by decide) rfl
    exact h

/-! ### Claim C9: an oversized symlink target -/

/-- C9: when the component is a symlink whose target does not fit the
4096-byte read buffer (the read would report more than 4095 bytes), the
call fails, and this branch sets no errno of its own: the error carries
whatever errno value `er` the state already held before the (successful)
oversized read. -/
theorem spec_C9 (fs : Fs) (ex : Bool) (n i : Nat) (p dn : List String) (er : Errno)
    (l : List Nat) (ni ml : Nat) (io : Bool) (new : String) (rest : List String) (t : String)
    (h1 : new ≠ ".") (h2 : new ≠ "..")
    (hrl : readlinkat fs p new = Except.ok t)
    (hlen : t.length > 4095) :
    (resolveLoop fs ex (n + 1) ⟨new :: rest, dn, some ⟨i, p⟩, er, l, ni, ml, io⟩).1 =
      Except.error er := by
  rw [resolveLoop_succ_cons fs ex n _ new rest rfl]
  have hrl' : readlinkat fs
      (dirfdPath (iterMark ⟨new :: rest, dn, some ⟨i, p⟩, er, l, ni, ml, io⟩)) new =
      Except.ok t := hrl
  rw [resolveStep_rl_ok_long fs ex _ new rest t rfl h1 h2 hrl' hlen]
  simp

/-- C9 witness: a symlink with a 4096-character target fails, and the error
returned is the stale incoming errno (`EINVAL` here), untouched by this
branch. -/
theorem spec_C9_witness :
    readlinkat [("s", FsNode.symlink (String.mk (List.replicate 4096 'x')))] [] "s" =
      Except.ok (String.mk (List.replicate 4096 'x')) ∧
    (String.mk (List.replicate 4096 'x')).length > 4095 ∧
    (resolveLoop [("s", FsNode.symlink (String.mk (List.replicate 4096 'x')))] true 1
        ⟨["s"], [], some ⟨0, []⟩, Errno.EINVAL, [0], 1, 1, true⟩).1 =
      Except.error Errno.EINVAL := by
  have hlen : (String.mk (List.replicate 4096 'x')).length > 4095 := by
    have h : (List.replicate 4096 'x').length = 4096 := List.length_replicate 4096 'x'
    show (List.replicate 4096 'x').length > 4095
    omega
  refine ⟨rfl, hlen, ?_⟩
  exact spec_C9 [("s", FsNode.symlink (String.mk (List.replicate 4096 'x')))] true 0 0 [] []
    Errno.EINVAL [0] 1 1 true "s" [] (String.mk (List.replicate 4096 'x'))
    (by decide) (by decide) rfl hlen

/-! ### Claims C7 and C8: handle discipline and the cleanup path -/

theorem initSt_HInv (td : List String) (e0 : Errno) : HInv (initSt td e0) := by
  refine ⟨⟨?_, ?_, ?_, ?_⟩, ?_⟩
  · intro h hh
    simp [initSt] at hh
    subst hh
    exact ⟨rfl, Nat.zero_lt_one⟩
  · intro hn
    simp [initSt] at hn
  · show (1 : Nat) ≤ 2
    decide
  · rfl
  · intro _
    simp [initSt]

theorem xabspathFull_fin (fs : Fs) (cwd : String) (e0 : Errno) (path : String) (ex : Bool) :
    FinInv (xabspathFull fs cwd e0 path ex) := by
  by_cases habs : pathIsAbs path = true
  · rw [xabspathFull_unfold_abs fs cwd e0 path ex habs]
    exact resolveLoop_inv fs ex 9999 _ (initSt_HInv _ e0)
  · rw [xabspathFull_unfold_rel fs cwd e0 path ex habs]
    exact resolveLoop_inv fs ex 9999 _ (initSt_HInv _ e0)

/-- C8 counterexample: the claim that exactly one directory handle is live at
every point (and that a transition closes the previous handle before opening
the new one) is false: resolving `/a/b` over `[("a", dir [("b", dir [])])]`
opens the handle for `a` with `xopenat` before closing the root handle, so
two handles are momentarily live — the run's high-water mark is 2, not at
most 1. -/
theorem spec_C8_counterexample :
    (xabspathFull [("a", FsNode.dir [("b", FsNode.dir [])])] "/" Errno.EINVAL "/a/b"
        false).2.maxLive = 2 ∧
    ¬((xabspathFull [("a", FsNode.dir [("b", FsNode.dir [])])] "/" Errno.EINVAL "/a/b"
        false).2.maxLive ≤ 1) := by
  constructor
  · rfl
  · intro hcon
    have h2 : (xabspathFull [("a", FsNode.dir [("b", FsNode.dir [])])] "/" Errno.EINVAL "/a/b"
        false).2.maxLive = 2 := rfl
    rw [h2] at hcon
    omega

/-- C8 (amended): at most two handles are ever simultaneously live (the new
handle is opened with `xopenat` before the replaced cursor is closed, so the
momentary overlap is exactly during the swap), every loop iteration starts
with exactly one live handle, and when the call returns every opened handle
has been closed. -/
theorem spec_C8_amended (fs : Fs) (cwd : String) (e0 : Errno) (path : String) (ex : Bool) :
    (xabspathFull fs cwd e0 path ex).2.live = [] ∧
    (xabspathFull fs cwd e0 path ex).2.maxLive ≤ 2 ∧
    (xabspathFull fs cwd e0 path ex).2.iterOk = true := by
  obtain ⟨h1, h2, h3, -, -, -⟩ := xabspathFull_fin fs cwd e0 path ex
  exact ⟨h1, h2, h3⟩

/-- C7: every fatal condition exits through the single cleanup path: when
`xabspath` returns NULL, the final state has no live handle (the cursor was
closed), both the pending and the resolved lists have been freed, and the
error value the caller observes is exactly the state's `errno` at the point
of failure (the cleanup itself touches no errno). -/
theorem spec_C7 (fs : Fs) (cwd : String) (e0 : Errno) (path : String) (ex : Bool) (e : Errno)
    (h : xabspath fs cwd e0 path ex = Except.error e) :
    (xabspathFull fs cwd e0 path ex).2.live = [] ∧
    (xabspathFull fs cwd e0 path ex).2.todo = [] ∧
    (xabspathFull fs cwd e0 path ex).2.done = [] ∧
    (xabspathFull fs cwd e0 path ex).2.errno = e := by
  obtain ⟨h1, -, -, h4, h5, h6⟩ := xabspathFull_fin fs cwd e0 path ex
  exact ⟨h1, h4, h5, h6 e h⟩

/-- C7 witness: over the empty root directory, resolving `/x/y` fails with
`ENOENT`, and the final state shows the cleanup ran: no live handle, both
lists freed, errno `ENOENT`. -/
theorem spec_C7_witness :
    xabspath [] "/" Errno.EINVAL "/x/y" false = Except.error Errno.ENOENT ∧
    ((xabspathFull [] "/" Errno.EINVAL "/x/y" false).2.live = [] ∧
     (xabspathFull [] "/" Errno.EINVAL "/x/y" false).2.todo = [] ∧
     (xabspathFull [] "/" Errno.EINVAL "/x/y" false).2.done = [] ∧
     (xabspathFull [] "/" Errno.EINVAL "/x/y" false).2.errno = Errno.ENOENT) :=
  ⟨rfl, spec_C7 [] "/" Errno.EINVAL "/x/y" false Errno.ENOENT rfl⟩

/-! ### Claim C10: shape of a successful result -/

theorem slash_append_ne_empty (x : String) : ("/" ++ x : String) ≠ "" := by
  intro hcon
  have hd := congrArg String.data hcon
  rw [String.data_append] at hd
  have hlist : ('/' :: x.data : List Char) = [] := hd
  exact List.noConfusion hlist

/-- C10: whenever `xabspath` succeeds, the returned string is non-empty and
begins with `/`; it is the canonical assembly of the final resolved list:
`/` followed by the non-empty, separator-free components joined by single
`/` characters (hence no trailing slash), and it is exactly `"/"` when the
resolved list is empty. -/
theorem spec_C10 (fs : Fs) (cwd : String) (e0 : Errno) (path : String) (ex : Bool)
    (s : String) (h : xabspath fs cwd e0 path ex = Except.ok s) :
    (∃ r, s = "/" ++ r) ∧ s ≠ "" ∧
    ∃ dn, (∀ c ∈ dn, c ≠ "" ∧ '/' ∉ c.data) ∧
      s = "/" ++ String.intercalate "/" dn ∧ (dn = [] → s = "/") := by
  have main : ∀ td : List String, (∀ c ∈ td, goodComp c) →
      (resolveLoop fs ex 9999 (initSt td e0)).1 = Except.ok s →
      (∃ r, s = "/" ++ r) ∧ s ≠ "" ∧
      ∃ dn, (∀ c ∈ dn, c ≠ "" ∧ '/' ∉ c.data) ∧
        s = "/" ++ String.intercalate "/" dn ∧ (dn = [] → s = "/") := by
    intro td htd hok
    have hG : GoodSt (initSt td e0) := ⟨by simpa [initSt] using htd, by simp [initSt]⟩
    obtain ⟨dn0, hg, hs⟩ := resolveLoop_good fs ex 9999 _ hG s hok
    have hne : ∀ c ∈ dn0, c ≠ "" := fun c hc => goodComp_ne_empty c (hg c hc)
    have hsi : s = "/" ++ String.intercalate "/" dn0.reverse := by
      rw [hs]
      exact assemble_eq_intercalate dn0 hne
    refine ⟨⟨_, hsi⟩, ?_, dn0.reverse, ?_, hsi, ?_⟩
    · rw [hsi]
      exact slash_append_ne_empty _
    · intro c hc
      have hmem := List.mem_reverse.mp hc
      exact ⟨hne c hmem, (hg c hmem).2⟩
    · intro hrev
      have hnil : dn0 = [] := List.reverse_eq_nil_iff.mp hrev
      subst hnil
      rw [hs]
      rfl
  by_cases habs : pathIsAbs path = true
  · rw [xabspath_unfold_abs fs cwd e0 path ex habs] at h
    exact main (splitpath path) (splitpath_good path) h
  · rw [xabspath_unfold_rel fs cwd e0 path ex habs] at h
    refine main _ ?_ h
    intro c hc
    rcases List.mem_append.mp hc with hc | hc
    · exact splitpath_good cwd c hc
    · exact splitpath_good path c hc

/-- C10 witness: `/a` over `[("a", dir [])]` succeeds with `"/a"`, which has
the canonical shape. -/
theorem spec_C10_witness :
    xabspath [("a", FsNode.dir [])] "/" Errno.EINVAL "/a" true = Except.ok "/a" ∧
    ((∃ r, ("/a" : String) = "/" ++ r) ∧ ("/a" : String) ≠ "" ∧
      ∃ dn, (∀ c ∈ dn, c ≠ "" ∧ '/' ∉ c.data) ∧
        ("/a" : String) = "/" ++ String.intercalate "/" dn ∧
        (dn = [] → ("/a" : String) = "/")) :=
  ⟨rfl, spec_C10 [("a", FsNode.dir [])] "/" Errno.EINVAL "/a" true "/a" rfl⟩

/-! ### Claim C5: `.` and `..` handling -/

/-- C5 counterexample: with `a` a directory, `b` a regular file and `c` a
directory — all existing, none a symlink — `xabspath("/a/b/../c", 0)` does
not return `"/a/c"`: after committing `b` the cursor is a handle on the
regular file, and `xopenat(cursor, "..")` fails with `ENOTDIR`, which is
fatal, so the call returns NULL with `errno = ENOTDIR`. -/
theorem spec_C5_counterexample :
    (findChild [("a", FsNode.dir [("b", FsNode.file), ("c", FsNode.dir [])])] "a" =
      some (FsNode.dir [("b", FsNode.file), ("c", FsNode.dir [])])) ∧
    (findChild [("b", FsNode.file), ("c", FsNode.dir [])] "b" = some FsNode.file) ∧
    (findChild [("b", FsNode.file), ("c", FsNode.dir [])] "c" = some (FsNode.dir [])) ∧
    xabspath [("a", FsNode.dir [("b", FsNode.file), ("c", FsNode.dir [])])] "/"
        Errno.EINVAL "/a/b/../c" false = Except.error Errno.ENOTDIR ∧
    ¬(xabspath [("a", FsNode.dir [("b", FsNode.file), ("c", FsNode.dir [])])] "/"
        Errno.EINVAL "/a/b/../c" false = Except.ok "/a/c") := by
  refine ⟨rfl, rfl, rfl, rfl, ?_⟩
  intro hcon
  have hval : xabspath [("a", FsNode.dir [("b", FsNode.file), ("c", FsNode.dir [])])] "/"
      Errno.EINVAL "/a/b/../c" false = Except.error Errno.ENOTDIR := rfl
  rw [hval] at hcon
  exact Except.noConfusion hcon

/-- C5 (amended): with `a` and `b` directories (`b` under `a`) and `c` an
existing non-symlink under `a`, `xabspath("/a/b/../c", exact)` returns
`"/a/c"` — a `..` component removes the most recently resolved component —
and `xabspath("/../a", exact)` returns `"/a"` — `..` at the root is a no-op;
a `.` component is discarded with no other effect on the state.  (The
counterexample forces requiring `b` to be a directory: the code re-opens the
parent via `xopenat(cursor, "..")`, which fails with `ENOTDIR` when the
committed component is a regular file.) -/
theorem spec_C5_amended (fs : Fs) (cwd : String) (e0 : Errno) (ex : Bool)
    (cA cB : List (String × FsNode)) (cn : FsNode)
    (hA : findChild fs "a" = some (FsNode.dir cA))
    (hB : findChild cA "b" = some (FsNode.dir cB))
    (hC : findChild cA "c" = some cn)
    (hcn : ∀ t, cn ≠ FsNode.symlink t) :
    xabspath fs cwd e0 "/a/b/../c" ex = Except.ok "/a/c" ∧
    xabspath fs cwd e0 "/../a" ex = Except.ok "/a" ∧
    (∀ (n : Nat) (T dn : List String) (dfd : Option Handle) (er : Errno)
        (l : List Nat) (ni ml : Nat) (io : Bool),
      resolveLoop fs ex (n + 1) ⟨"." :: T, dn, dfd, er, l, ni, ml, io⟩ =
        resolveLoop fs ex n ⟨T, dn, dfd, er, l, ni, ml, io && (l.length == 1)⟩) := by
  have hresRoot : resolveHandle fs [] = some (FsNode.dir fs) := rfl
  have hresA : resolveHandle fs ["a"] = some (FsNode.dir cA) := by
    simp [resolveHandle, resolveNode, hA]
  have hresAB : resolveHandle fs ["a", "b"] = some (FsNode.dir cB) := by
    simp [resolveHandle, resolveNode, hA, hB]
  have hrl_a : readlinkat fs [] "a" = Except.error Errno.EINVAL := by
    simp [readlinkat, hresRoot, hA]
  have hop_a : openat fs [] "a" = Except.ok ["a"] := by
    simp [openat, hresRoot, hA]
  have hrl_b : readlinkat fs ["a"] "b" = Except.error Errno.EINVAL := by
    simp [readlinkat, hresA, hB]
  have hop_b : openat fs ["a"] "b" = Except.ok ["a", "b"] := by
    simp [openat, hresA, hB]
  have hop_dd : openat fs ["a", "b"] ".." = Except.ok ["a"] := by
    simp [openat, hresAB]
  have hop_root_dd : openat fs [] ".." = Except.ok [] := by
    simp [openat, hresRoot]
  have hrl_c : readlinkat fs ["a"] "c" = Except.error Errno.EINVAL := by
    cases cn with
    | symlink t => exact absurd rfl (hcn t)
    | dir cs => simp [readlinkat, hresA, hC]
    | file => simp [readlinkat, hresA, hC]
  have s1 : ∀ m, resolveLoop fs ex (m + 1)
      ⟨["a", "b", "..", "c"], [], some ⟨0, []⟩, e0, [0], 1, 1, true⟩ =
      resolveLoop fs ex m
        ⟨["b", "..", "c"], ["a"], some ⟨1, ["a"]⟩, Errno.EINVAL, [1], 2, 2, true⟩ := by
    intro m
    rw [resolveLoop_succ_cons fs ex m _ "a" ["b", "..", "c"] rfl]
    have hrl' : readlinkat fs (dirfdPath (iterMark
        ⟨["a", "b", "..", "c"], [], some ⟨0, []⟩, e0, [0], 1, 1, true⟩)) "a" =
        Except.error Errno.EINVAL := hrl_a
    have hop' : openat fs (dirfdPath (iterMark
        ⟨["a", "b", "..", "c"], [], some ⟨0, []⟩, e0, [0], 1, 1, true⟩)) "a" =
        Except.ok ["a"] := hop_a
    rw [resolveStep_notlink_adv fs ex _ "a" ["b", "..", "c"] ["a"] Errno.EINVAL rfl
          (by decide) (by decide) hrl' (by simp) (by simp) hop']
    rfl
  have s2 : ∀ m, resolveLoop fs ex (m + 1)
      ⟨["b", "..", "c"], ["a"], some ⟨1, ["a"]⟩, Errno.EINVAL, [1], 2, 2, true⟩ =
      resolveLoop fs ex m
        ⟨["..", "c"], ["b", "a"], some ⟨2, ["a", "b"]⟩, Errno.EINVAL, [2], 3, 2, true⟩ := by
    intro m
    rw [resolveLoop_succ_cons fs ex m _ "b" ["..", "c"] rfl]
    have hrl' : readlinkat fs (dirfdPath (iterMark
        ⟨["b", "..", "c"], ["a"], some ⟨1, ["a"]⟩, Errno.EINVAL, [1], 2, 2, true⟩)) "b" =
        Except.error Errno.EINVAL := hrl_b
    have hop' : openat fs (dirfdPath (iterMark
        ⟨["b", "..", "c"], ["a"], some ⟨1, ["a"]⟩, Errno.EINVAL, [1], 2, 2, true⟩)) "b" =
        Except.ok ["a", "b"] := hop_b
    rw [resolveStep_notlink_adv fs ex _ "b" ["..", "c"] ["a", "b"] Errno.EINVAL rfl
          (by decide) (by decide) hrl' (by simp) (by simp) hop']
    rfl
  have s3 : ∀ m, resolveLoop fs ex (m + 1)
      ⟨["..", "c"], ["b", "a"], some ⟨2, ["a", "b"]⟩, Errno.EINVAL, [2], 3, 2, true⟩ =
      resolveLoop fs ex m
        ⟨["c"], ["a"], some ⟨3, ["a"]⟩, Errno.EINVAL, [3], 4, 2, true⟩ := by
    intro m
    rw [resolveLoop_succ_cons fs ex m _ ".." ["c"] rfl]
    have hop' : openat fs (dirfdPath (iterMark
        ⟨["..", "c"], ["b", "a"], some ⟨2, ["a", "b"]⟩, Errno.EINVAL, [2], 3, 2, true⟩)) ".." =
        Except.ok ["a"] := hop_dd
    rw [resolveStep_dotdot_ok fs ex _ ["c"] ["a"] rfl hop']
    rfl
  have s4 : ∀ m, (resolveLoop fs ex (m + 1)
      ⟨["c"], ["a"], some ⟨3, ["a"]⟩, Errno.EINVAL, [3], 4, 2, true⟩).1 =
      Except.ok "/a/c" := by
    intro m
    rw [resolveLoop_succ_cons fs ex m _ "c" [] rfl]
    have hrl' : readlinkat fs (dirfdPath (iterMark
        ⟨["c"], ["a"], some ⟨3, ["a"]⟩, Errno.EINVAL, [3], 4, 2, true⟩)) "c" =
        Except.error Errno.EINVAL := hrl_c
    rw [resolveStep_rl_err_brk fs ex _ "c" [] Errno.EINVAL rfl (by decide) (by decide) hrl'
          (by simp) ⟨rfl, rfl⟩]
    rfl
  have t1 : ∀ m, resolveLoop fs ex (m + 1)
      ⟨["..", "a"], [], some ⟨0, []⟩, e0, [0], 1, 1, true⟩ =
      resolveLoop fs ex m ⟨["a"], [], some ⟨1, []⟩, e0, [1], 2, 2, true⟩ := by
    intro m
    rw [resolveLoop_succ_cons fs ex m _ ".." ["a"] rfl]
    have hop' : openat fs (dirfdPath (iterMark
        ⟨["..", "a"], [], some ⟨0, []⟩, e0, [0], 1, 1, true⟩)) ".." =
        Except.ok [] := hop_root_dd
    rw [resolveStep_dotdot_ok fs ex _ ["a"] [] rfl hop']
    rfl
  have t2 : ∀ m, (resolveLoop fs ex (m + 1)
      ⟨["a"], [], some ⟨1, []⟩, e0, [1], 2, 2, true⟩).1 = Except.ok "/a" := by
    intro m
    rw [resolveLoop_succ_cons fs ex m _ "a" [] rfl]
    have hrl' : readlinkat fs (dirfdPath (iterMark
        ⟨["a"], [], some ⟨1, []⟩, e0, [1], 2, 2, true⟩)) "a" =
        Except.error Errno.EINVAL := hrl_a
    rw [resolveStep_rl_err_brk fs ex _ "a" [] Errno.EINVAL rfl (by decide) (by decide) hrl'
          (by simp) ⟨rfl, rfl⟩]
    rfl
  refine ⟨?_, ?_, ?_⟩
  · rw [xabspath_unfold_abs fs cwd e0 "/a/b/../c" ex rfl]
    rw [show splitpath "/a/b/../c" = ["a", "b", "..", "c"] from rfl, initSt_def]
    rw [show (9999 : Nat) = 9998 + 1 from rfl, s1 9998]
    rw [show (9998 : Nat) = 9997 + 1 from rfl, s2 9997]
    rw [show (9997 : Nat) = 9996 + 1 from rfl, s3 9996]
    rw [show (9996 : Nat) = 9995 + 1 from rfl]
    exact s4 9995
  · rw [xabspath_unfold_abs fs cwd e0 "/../a" ex rfl]
    rw [show splitpath "/../a" = ["..", "a"] from rfl, initSt_def]
    rw [show (9999 : Nat) = 9998 + 1 from rfl, t1 9998]
    rw [show (9998 : Nat) = 9997 + 1 from rfl]
    exact t2 9997
  · intro n T dn dfd er l ni ml io
    rw [resolveLoop_succ_cons fs ex n _ "." T rfl]
    rw [resolveStep_dot fs ex _ T rfl]
    rfl

/-- C5 witness: with `a`, `b`, `c` directories, `/a/b/../c` canonicalizes to
`/a/c` and `/../a` to `/a`. -/
theorem spec_C5_witness :
    xabspath [("a", FsNode.dir [("b", FsNode.dir []), ("c", FsNode.dir [])])] "/"
        Errno.EINVAL "/a/b/../c" true = Except.ok "/a/c" ∧
    xabspath [("a", FsNode.dir [("b", FsNode.dir []), ("c", FsNode.dir [])])] "/"
        Errno.EINVAL "/../a" true = Except.ok "/a" := by
  have h := spec_C5_amended [("a", FsNode.dir [("b", FsNode.dir []), ("c", FsNode.dir [])])]
    "/" Errno.EINVAL true [("b", FsNode.dir []), ("c", FsNode.dir [])] [] (FsNode.dir [])
    rfl rfl rfl (fun t hcon => FsNode.noConfusion hcon)
  exact ⟨h.1, h.2.1⟩

/-! ### Claim C3: symlink substitution -/

/-- `.1`-level normalization of one relative-symlink splice: the ledger and
`iterOk` bookkeeping do not affect the returned value, so the continuation
state can be stated with the same ledger fields. -/
theorem relStep_fst (fs : Fs) (ex : Bool) (nm T : String) (R : List String) (m : Nat)
    (dn : List String) (j : Nat) (er : Errno) (l : List Nat) (nj ml : Nat) (io : Bool)
    (h1 : nm ≠ ".") (h2 : nm ≠ "..")
    (hrl : readlinkat fs [] nm = Except.ok T)
    (hlen : ¬(T.length > 4095)) (h0 : ¬(T.length = 0))
    (habs : ¬(T.data.head? = some '/')) :
    (resolveLoop fs ex (m + 1) ⟨nm :: R, dn, some ⟨j, []⟩, er, l, nj, ml, io⟩).1 =
    (resolveLoop fs ex m ⟨splitpath T ++ R, dn, some ⟨j, []⟩, er, l, nj, ml, io⟩).1 := by
  rw [resolveLoop_succ_cons fs ex m _ nm R rfl]
  have hrl' : readlinkat fs
      (dirfdPath (iterMark ⟨nm :: R, dn, some ⟨j, []⟩, er, l, nj, ml, io⟩)) nm =
      Except.ok T := hrl
  rw [resolveStep_rl_ok_rel fs ex _ nm R T rfl h1 h2 hrl' hlen h0 habs]
  dsimp only
  exact resolveLoop_obsEq fs ex m _ _ ⟨rfl, rfl, rfl, rfl⟩

/-- `.1`-level normalization of one absolute-symlink splice: the resolved
list is discarded and the cursor reset to root; the fresh handle's id and
the ledger do not affect the returned value. -/
theorem absStep_fst (fs : Fs) (ex : Bool) (nm T : String) (R : List String) (m : Nat)
    (dn : List String) (j : Nat) (er : Errno) (l : List Nat) (nj ml : Nat) (io : Bool)
    (h1 : nm ≠ ".") (h2 : nm ≠ "..")
    (hrl : readlinkat fs [] nm = Except.ok T)
    (hlen : ¬(T.length > 4095)) (h0 : ¬(T.length = 0))
    (habs : T.data.head? = some '/') :
    (resolveLoop fs ex (m + 1) ⟨nm :: R, dn, some ⟨j, []⟩, er, l, nj, ml, io⟩).1 =
    (resolveLoop fs ex m ⟨splitpath T ++ R, [], some ⟨0, []⟩, er, [0], 1, 1, true⟩).1 := by
  rw [resolveLoop_succ_cons fs ex m _ nm R rfl]
  have hrl' : readlinkat fs
      (dirfdPath (iterMark ⟨nm :: R, dn, some ⟨j, []⟩, er, l, nj, ml, io⟩)) nm =
      Except.ok T := hrl
  rw [resolveStep_rl_ok_abs fs ex _ nm R T rfl h1 h2 hrl' hlen h0 habs]
  dsimp only
  exact resolveLoop_obsEq fs ex m _ _ ⟨rfl, rfl, rfl, rfl⟩

/-- C3 (amended): whenever `/a` is a symlink to `/b/c` and resolving `/a/d`
does not exhaust the iteration budget (does not fail with `ELOOP`),
`xabspath("/a/d", exact)` and `xabspath("/b/c/d", exact)` return the same
result.  (The counterexample forces the budget proviso: `/a/d` has one
fewer iteration left than `/b/c/d` when both reach the spliced components,
so a filesystem that consumes exactly the whole budget distinguishes
them.) -/
theorem spec_C3_amended (fs : Fs) (cwd : String) (e0 : Errno) (ex : Bool)
    (hA : findChild fs "a" = some (FsNode.symlink "/b/c"))
    (hne : xabspath fs cwd e0 "/a/d" ex ≠ Except.error Errno.ELOOP) :
    xabspath fs cwd e0 "/a/d" ex = xabspath fs cwd e0 "/b/c/d" ex := by
  have hrl_a : readlinkat fs [] "a" = Except.ok "/b/c" := by
    simp [readlinkat, show resolveHandle fs [] = some (FsNode.dir fs) from rfl, hA]
  have hstepA : (resolveLoop fs ex (9998 + 1)
      ⟨["a", "d"], [], some ⟨0, []⟩, e0, [0], 1, 1, true⟩).1 =
      (resolveLoop fs ex 9998
        ⟨["b", "c", "d"], [], some ⟨0, []⟩, e0, [0], 1, 1, true⟩).1 := by
    have h := absStep_fst fs ex "a" "/b/c" ["d"] 9998 [] 0 e0 [0] 1 1 true
      (by decide) (by decide) hrl_a (by decide) (by decide) rfl
    rw [show splitpath "/b/c" ++ ["d"] = ["b", "c", "d"] from rfl] at h
    exact h
  have hL : xabspath fs cwd e0 "/a/d" ex =
      (resolveLoop fs ex 9998 ⟨["b", "c", "d"], [], some ⟨0, []⟩, e0, [0], 1, 1, true⟩).1 := by
    rw [xabspath_unfold_abs fs cwd e0 "/a/d" ex rfl]
    rw [show splitpath "/a/d" = ["a", "d"] from rfl, initSt_def]
    rw [show (9999 : Nat) = 9998 + 1 from rfl]
    exact hstepA
  have hR : xabspath fs cwd e0 "/b/c/d" ex =
      (resolveLoop fs ex 9999 ⟨["b", "c", "d"], [], some ⟨0, []⟩, e0, [0], 1, 1, true⟩).1 := by
    rw [xabspath_unfold_abs fs cwd e0 "/b/c/d" ex rfl]
    rw [show splitpath "/b/c/d" = ["b", "c", "d"] from rfl, initSt_def]
  have hne' : (resolveLoop fs ex 9998
      ⟨["b", "c", "d"], [], some ⟨0, []⟩, e0, [0], 1, 1, true⟩).1 ≠
      Except.error Errno.ELOOP := by
    rw [← hL]
    exact hne
  have hmono := resolveLoop_mono fs ex 9998
    ⟨["b", "c", "d"], [], some ⟨0, []⟩, e0, [0], 1, 1, true⟩ hne'
  rw [hL, hR, show (9999 : Nat) = 9998 + 1 from rfl, hmono]

/-- `k` repetitions of `e/`: the characters of a symlink target made of `k`
components named `e`, each separated (and terminated) by `/`. -/
def eChars : Nat → List Char
  | 0 => []
  | k + 1 => 'e' :: '/' :: eChars k

theorem eChars_length (k : Nat) : (eChars k).length = 2 * k := by
  induction k with
  | zero => rfl
  | succ k ih =>
    show ('e' :: '/' :: eChars k).length = 2 * (k + 1)
    simp [ih]
    omega

theorem splitpathAux_eChars (k : Nat) :
    ∀ rest : List Char, splitpathAux (eChars k ++ rest) [] =
      List.replicate k "e" ++ splitpathAux rest [] := by
  induction k with
  | zero => intro rest; rfl
  | succ k ih =>
    intro rest
    show splitpathAux ('e' :: '/' :: (eChars k ++ rest)) [] = _
    rw [splitpathAux]
    rw [if_neg (by decide : ¬('e' = '/'))]
    rw [splitpathAux]
    rw [if_pos rfl, if_neg (by decide : ¬(['e'] = ([] : List Char)))]
    rw [ih rest]
    rfl

/-- Symlink target `e/e/.../e/b2` (2046 `e` components, then `b2`). -/
def chainT1 : String := String.mk (eChars 2046 ++ ['b', '2'])

/-- Symlink target `e/e/.../e/b3` (2046 `e` components, then `b3`). -/
def chainT2 : String := String.mk (eChars 2046 ++ ['b', '3'])

/-- Symlink target `e/e/.../e/` (905 `e` components). -/
def chainT3 : String := String.mk (eChars 905)

/-- A filesystem on which resolving `/b/c/d` takes exactly the whole 9999
iteration budget: `b`, `b2`, `b3` are symlinks whose targets splice in long
runs of the symlink `e -> .`, each `e` costing two iterations. -/
def chainFs : Fs :=
  [("a", FsNode.symlink "/b/c"),
   ("b", FsNode.symlink chainT1),
   ("b2", FsNode.symlink chainT2),
   ("b3", FsNode.symlink chainT3),
   ("e", FsNode.symlink "."),
   ("c", FsNode.dir [("d", FsNode.dir [])])]

theorem splitpath_chainT1 : splitpath chainT1 = List.replicate 2046 "e" ++ ["b2"] := by
  show splitpathAux (eChars 2046 ++ ['b', '2']) [] = _
  rw [splitpathAux_eChars]
  rw [show splitpathAux ['b', '2'] [] = ["b2"] from rfl]

theorem splitpath_chainT2 : splitpath chainT2 = List.replicate 2046 "e" ++ ["b3"] := by
  show splitpathAux (eChars 2046 ++ ['b', '3']) [] = _
  rw [splitpathAux_eChars]
  rw [show splitpathAux ['b', '3'] [] = ["b3"] from rfl]

theorem splitpath_chainT3 : splitpath chainT3 = List.replicate 905 "e" := by
  show splitpathAux (eChars 905) [] = _
  rw [show eChars 905 = eChars 905 ++ [] from (List.append_nil _).symm]
  rw [splitpathAux_eChars]
  rw [show splitpathAux ([] : List Char) [] = [] from rfl, List.append_nil]

theorem chainT1_length : chainT1.length = 4094 := by
  show (eChars 2046 ++ ['b', '2']).length = 4094
  rw [List.length_append, eChars_length]
  rfl

theorem chainT2_length : chainT2.length = 4094 := by
  show (eChars 2046 ++ ['b', '3']).length = 4094
  rw [List.length_append, eChars_length]
  rfl

theorem chainT3_length : chainT3.length = 1810 := by
  show (eChars 905).length = 1810
  rw [eChars_length]

/-- Two iterations per `e` component: `e -> .` splices a single `.`
component, which the next iteration discards; nothing else changes. -/
theorem burn (fs : Fs) (ex : Bool) (hE : readlinkat fs [] "e" = Except.ok ".") :
    ∀ (k m : Nat) (dn : List String) (j : Nat) (er : Errno) (l : List Nat)
      (nj ml : Nat) (io : Bool) (R : List String),
      (resolveLoop fs ex (2 * k + m)
        ⟨List.replicate k "e" ++ R, dn, some ⟨j, []⟩, er, l, nj, ml, io⟩).1 =
      (resolveLoop fs ex m ⟨R, dn, some ⟨j, []⟩, er, l, nj, ml, io⟩).1 := by
  intro k
  induction k with
  | zero =>
    intro m dn j er l nj ml io R
    rw [show 2 * 0 + m = m from by omega]
    rfl
  | succ k ih =>
    intro m dn j er l nj ml io R
    rw [show 2 * (k + 1) + m = (2 * k + m) + 1 + 1 from by omega]
    rw [List.replicate_succ, List.cons_append]
    rw [resolveLoop_succ_cons fs ex ((2 * k + m) + 1) _ "e" (List.replicate k "e" ++ R) rfl]
    have hrl' : readlinkat fs (dirfdPath (iterMark
        ⟨"e" :: (List.replicate k "e" ++ R), dn, some ⟨j, []⟩, er, l, nj, ml, io⟩)) "e" =
        Except.ok "." := hE
    rw [resolveStep_rl_ok_rel fs ex _ "e" (List.replicate k "e" ++ R) "." rfl
          (by decide) (by decide) hrl' (by decide) (by decide) (by decide)]
    dsimp only
    rw [show splitpath "." ++ (List.replicate k "e" ++ R) =
          "." :: (List.replicate k "e" ++ R) from rfl]
    rw [resolveLoop_succ_cons fs ex (2 * k + m) _ "." (List.replicate k "e" ++ R) rfl]
    rw [resolveStep_dot fs ex _ (List.replicate k "e" ++ R) rfl]
    dsimp only
    refine Eq.trans (resolveLoop_obsEq fs ex (2 * k + m) _
          ⟨List.replicate k "e" ++ R, dn, some ⟨j, []⟩, er, l, nj, ml, io⟩
          ⟨rfl, rfl, rfl, rfl⟩) (ih m dn j er l nj ml io R)

/-- `.1`-level normalization of one plain-component advance (not a symlink,
committed to `done`, cursor advanced to the opened handle). -/
theorem advStep_fst (fs : Fs) (ex : Bool) (nm : String) (R : List String) (m : Nat)
    (dn p q : List String) (j : Nat) (er e : Errno) (l : List Nat) (nj ml : Nat) (io : Bool)
    (h1 : nm ≠ ".") (h2 : nm ≠ "..")
    (hrl : readlinkat fs p nm = Except.error e)
    (hnc : ¬((ex = true ∨ R ≠ []) ∧ e ≠ Errno.EINVAL))
    (hnbrk : ¬(e = Errno.EINVAL ∧ R = []))
    (hop : openat fs p nm = Except.ok q) :
    (resolveLoop fs ex (m + 1) ⟨nm :: R, dn, some ⟨j, p⟩, er, l, nj, ml, io⟩).1 =
    (resolveLoop fs ex m ⟨R, nm :: dn, some ⟨0, q⟩, e, [0], 1, 1, true⟩).1 := by
  rw [resolveLoop_succ_cons fs ex m _ nm R rfl]
  have hrl' : readlinkat fs
      (dirfdPath (iterMark ⟨nm :: R, dn, some ⟨j, p⟩, er, l, nj, ml, io⟩)) nm =
      Except.error e := hrl
  have hop' : openat fs
      (dirfdPath (iterMark ⟨nm :: R, dn, some ⟨j, p⟩, er, l, nj, ml, io⟩)) nm =
      Except.ok q := hop
  rw [resolveStep_notlink_adv fs ex _ nm R q e rfl h1 h2 hrl' hnc hnbrk hop']
  dsimp only
  exact resolveLoop_obsEq fs ex m _ _ ⟨rfl, rfl, rfl, rfl⟩

theorem chainT1_not_long : ¬(chainT1.length > 4095) := by
  rw [chainT1_length]
  decide

theorem chainT1_not_empty : ¬(chainT1.length = 0) := by
  rw [chainT1_length]
  decide

theorem chainT1_not_abs : ¬(chainT1.data.head? = some '/') := by
  rw [show chainT1.data.head? = some 'e' from rfl]
  decide

theorem chainT2_not_long : ¬(chainT2.length > 4095) := by
  rw [chainT2_length]
  decide

theorem chainT2_not_empty : ¬(chainT2.length = 0) := by
  rw [chainT2_length]
  decide

theorem chainT2_not_abs : ¬(chainT2.data.head? = some '/') := by
  rw [show chainT2.data.head? = some 'e' from rfl]
  decide

theorem chainT3_not_long : ¬(chainT3.length > 4095) := by
  rw [chainT3_length]
  decide

theorem chainT3_not_empty : ¬(chainT3.length = 0) := by
  rw [chainT3_length]
  decide

theorem chainT3_not_abs : ¬(chainT3.data.head? = some '/') := by
  rw [show chainT3.data.head? = some 'e' from rfl]
  decide

/-- Resolving the pending list `[b, c, d]` on `chainFs` succeeds — it
consumes exactly the whole 9999 budget, the last component landing on the
final unit of fuel. -/
theorem chainFs_bcd :
    (resolveLoop chainFs true 9999
      ⟨["b", "c", "d"], [], some ⟨0, []⟩, Errno.EINVAL, [0], 1, 1, true⟩).1 =
    Except.ok "/c/d" := by
  calc (resolveLoop chainFs true 9999
          ⟨["b", "c", "d"], [], some ⟨0, []⟩, Errno.EINVAL, [0], 1, 1, true⟩).1
      = (resolveLoop chainFs true 9998
          ⟨splitpath chainT1 ++ ["c", "d"], [], some ⟨0, []⟩, Errno.EINVAL, [0], 1, 1, true⟩).1 :=
        relStep_fst chainFs true "b" chainT1 ["c", "d"] 9998 [] 0 Errno.EINVAL [0] 1 1 true
          (by decide) (by decide) rfl chainT1_not_long chainT1_not_empty chainT1_not_abs
    _ = (resolveLoop chainFs true 9998
          ⟨List.replicate 2046 "e" ++ ["b2", "c", "d"], [], some ⟨0, []⟩, Errno.EINVAL,
            [0], 1, 1, true⟩).1 := by
        rw [splitpath_chainT1, List.append_assoc, List.singleton_append]
    _ = (resolveLoop chainFs true 5906
          ⟨["b2", "c", "d"], [], some ⟨0, []⟩, Errno.EINVAL, [0], 1, 1, true⟩).1 :=
        burn chainFs true rfl 2046 5906 [] 0 Errno.EINVAL [0] 1 1 true ["b2", "c", "d"]
    _ = (resolveLoop chainFs true 5905
          ⟨splitpath chainT2 ++ ["c", "d"], [], some ⟨0, []⟩, Errno.EINVAL, [0], 1, 1, true⟩).1 :=
        relStep_fst chainFs true "b2" chainT2 ["c", "d"] 5905 [] 0 Errno.EINVAL [0] 1 1 true
          (by decide) (by decide) rfl chainT2_not_long chainT2_not_empty chainT2_not_abs
    _ = (resolveLoop chainFs true 5905
          ⟨List.replicate 2046 "e" ++ ["b3", "c", "d"], [], some ⟨0, []⟩, Errno.EINVAL,
            [0], 1, 1, true⟩).1 := by
        rw [splitpath_chainT2, List.append_assoc, List.singleton_append]
    _ = (resolveLoop chainFs true 1813
          ⟨["b3", "c", "d"], [], some ⟨0, []⟩, Errno.EINVAL, [0], 1, 1, true⟩).1 :=
        burn chainFs true rfl 2046 1813 [] 0 Errno.EINVAL [0] 1 1 true ["b3", "c", "d"]
    _ = (resolveLoop chainFs true 1812
          ⟨splitpath chainT3 ++ ["c", "d"], [], some ⟨0, []⟩, Errno.EINVAL, [0], 1, 1, true⟩).1 :=
        relStep_fst chainFs true "b3" chainT3 ["c", "d"] 1812 [] 0 Errno.EINVAL [0] 1 1 true
          (by decide) (by decide) rfl chainT3_not_long chainT3_not_empty chainT3_not_abs
    _ = (resolveLoop chainFs true 1812
          ⟨List.replicate 905 "e" ++ ["c", "d"], [], some ⟨0, []⟩, Errno.EINVAL,
            [0], 1, 1, true⟩).1 := by
        rw [splitpath_chainT3]
    _ = (resolveLoop chainFs true 2
          ⟨["c", "d"], [], some ⟨0, []⟩, Errno.EINVAL, [0], 1, 1, true⟩).1 :=
        burn chainFs true rfl 905 2 [] 0 Errno.EINVAL [0] 1 1 true ["c", "d"]
    _ = (resolveLoop chainFs true 1
          ⟨["d"], ["c"], some ⟨0, ["c"]⟩, Errno.EINVAL, [0], 1, 1, true⟩).1 :=
        advStep_fst chainFs true "c" ["d"] 1 [] [] ["c"] 0 Errno.EINVAL Errno.EINVAL
          [0] 1 1 true (by decide) (by decide) rfl (by simp) (by simp) rfl
    _ = Except.ok "/c/d" := by
        show (resolveLoop chainFs true (0 + 1)
          ⟨["d"], ["c"], some ⟨0, ["c"]⟩, Errno.EINVAL, [0], 1, 1, true⟩).1 = Except.ok "/c/d"
        rw [resolveLoop_succ_cons chainFs true 0 _ "d" [] rfl]
        have hrl' : readlinkat chainFs (dirfdPath (iterMark
            ⟨["d"], ["c"], some ⟨0, ["c"]⟩, Errno.EINVAL, [0], 1, 1, true⟩)) "d" =
            Except.error Errno.EINVAL := rfl
        rw [resolveStep_rl_err_brk chainFs true _ "d" [] Errno.EINVAL rfl (by decide)
              (by decide) hrl' (by simp) ⟨rfl, rfl⟩]
        rfl

/-- Resolving the pending list `[b, c, d]` on `chainFs` with one unit of
budget less fails with `ELOOP`: the final component `d` no longer fits. -/
theorem chainFs_bcd_short :
    (resolveLoop chainFs true 9998
      ⟨["b", "c", "d"], [], some ⟨0, []⟩, Errno.EINVAL, [0], 1, 1, true⟩).1 =
    Except.error Errno.ELOOP := by
  calc (resolveLoop chainFs true 9998
          ⟨["b", "c", "d"], [], some ⟨0, []⟩, Errno.EINVAL, [0], 1, 1, true⟩).1
      = (resolveLoop chainFs true 9997
          ⟨splitpath chainT1 ++ ["c", "d"], [], some ⟨0, []⟩, Errno.EINVAL, [0], 1, 1, true⟩).1 :=
        relStep_fst chainFs true "b" chainT1 ["c", "d"] 9997 [] 0 Errno.EINVAL [0] 1 1 true
          (by decide) (by decide) rfl chainT1_not_long chainT1_not_empty chainT1_not_abs
    _ = (resolveLoop chainFs true 9997
          ⟨List.replicate 2046 "e" ++ ["b2", "c", "d"], [], some ⟨0, []⟩, Errno.EINVAL,
            [0], 1, 1, true⟩).1 := by
        rw [splitpath_chainT1, List.append_assoc, List.singleton_append]
    _ = (resolveLoop chainFs true 5905
          ⟨["b2", "c", "d"], [], some ⟨0, []⟩, Errno.EINVAL, [0], 1, 1, true⟩).1 :=
        burn chainFs true rfl 2046 5905 [] 0 Errno.EINVAL [0] 1 1 true ["b2", "c", "d"]
    _ = (resolveLoop chainFs true 5904
          ⟨splitpath chainT2 ++ ["c", "d"], [], some ⟨0, []⟩, Errno.EINVAL, [0], 1, 1, true⟩).1 :=
        relStep_fst chainFs true "b2" chainT2 ["c", "d"] 5904 [] 0 Errno.EINVAL [0] 1 1 true
          (by decide) (by decide) rfl chainT2_not_long chainT2_not_empty chainT2_not_abs
    _ = (resolveLoop chainFs true 5904
          ⟨List.replicate 2046 "e" ++ ["b3", "c", "d"], [], some ⟨0, []⟩, Errno.EINVAL,
            [0], 1, 1, true⟩).1 := by
        rw [splitpath_chainT2, List.append_assoc, List.singleton_append]
    _ = (resolveLoop chainFs true 1812
          ⟨["b3", "c", "d"], [], some ⟨0, []⟩, Errno.EINVAL, [0], 1, 1, true⟩).1 :=
        burn chainFs true rfl 2046 1812 [] 0 Errno.EINVAL [0] 1 1 true ["b3", "c", "d"]
    _ = (resolveLoop chainFs true 1811
          ⟨splitpath chainT3 ++ ["c", "d"], [], some ⟨0, []⟩, Errno.EINVAL, [0], 1, 1, true⟩).1 :=
        relStep_fst chainFs true "b3" chainT3 ["c", "d"] 1811 [] 0 Errno.EINVAL [0] 1 1 true
          (by decide) (by decide) rfl chainT3_not_long chainT3_not_empty chainT3_not_abs
    _ = (resolveLoop chainFs true 1811
          ⟨List.replicate 905 "e" ++ ["c", "d"], [], some ⟨0, []⟩, Errno.EINVAL,
            [0], 1, 1, true⟩).1 := by
        rw [splitpath_chainT3]
    _ = (resolveLoop chainFs true 1
          ⟨["c", "d"], [], some ⟨0, []⟩, Errno.EINVAL, [0], 1, 1, true⟩).1 :=
        burn chainFs true rfl 905 1 [] 0 Errno.EINVAL [0] 1 1 true ["c", "d"]
    _ = (resolveLoop chainFs true 0
          ⟨["d"], ["c"], some ⟨0, ["c"]⟩, Errno.EINVAL, [0], 1, 1, true⟩).1 :=
        advStep_fst chainFs true "c" ["d"] 0 [] [] ["c"] 0 Errno.EINVAL Errno.EINVAL
          [0] 1 1 true (by decide) (by decide) rfl (by simp) (by simp) rfl
    _ = Except.error Errno.ELOOP := by
        rw [resolveLoop_zero_cons chainFs true _ "d" [] rfl]
        simp

/-- C3 counterexample: on `chainFs`, `/a` is a symlink to `/b/c`, yet
`xabspath("/a/d", 1)` and `xabspath("/b/c/d", 1)` differ: resolving
`[b, c, d]` takes exactly the whole 9999 iteration budget, and the run
through `/a/d` has already spent one iteration expanding `a`, so it runs
out of budget (`ELOOP`) one component before the end while `/b/c/d`
succeeds with `"/c/d"`. -/
theorem spec_C3_counterexample :
    findChild chainFs "a" = some (FsNode.symlink "/b/c") ∧
    xabspath chainFs "/" Errno.EINVAL "/a/d" true = Except.error Errno.ELOOP ∧
    xabspath chainFs "/" Errno.EINVAL "/b/c/d" true = Except.ok "/c/d" ∧
    ¬(xabspath chainFs "/" Errno.EINVAL "/a/d" true =
        xabspath chainFs "/" Errno.EINVAL "/b/c/d" true) := by
  have hrl_a : readlinkat chainFs [] "a" = Except.ok "/b/c" := rfl
  have hAD : xabspath chainFs "/" Errno.EINVAL "/a/d" true = Except.error Errno.ELOOP := by
    rw [xabspath_unfold_abs chainFs "/" Errno.EINVAL "/a/d" true rfl]
    rw [show splitpath "/a/d" = ["a", "d"] from rfl, initSt_def]
    calc (resolveLoop chainFs true 9999
            ⟨["a", "d"], [], some ⟨0, []⟩, Errno.EINVAL, [0], 1, 1, true⟩).1
        = (resolveLoop chainFs true 9998
            ⟨splitpath "/b/c" ++ ["d"], [], some ⟨0, []⟩, Errno.EINVAL, [0], 1, 1, true⟩).1 :=
          absStep_fst chainFs true "a" "/b/c" ["d"] 9998 [] 0 Errno.EINVAL [0] 1 1 true
            (by decide) (by decide) hrl_a (by decide) (by decide) rfl
      _ = (resolveLoop chainFs true 9998
            ⟨["b", "c", "d"], [], some ⟨0, []⟩, Errno.EINVAL, [0], 1, 1, true⟩).1 := by
          rw [show splitpath "/b/c" ++ ["d"] = ["b", "c", "d"] from rfl]
      _ = Except.error Errno.ELOOP := chainFs_bcd_short
  have hBCD : xabspath chainFs "/" Errno.EINVAL "/b/c/d" true = Except.ok "/c/d" := by
    rw [xabspath_unfold_abs chainFs "/" Errno.EINVAL "/b/c/d" true rfl]
    rw [show splitpath "/b/c/d" = ["b", "c", "d"] from rfl, initSt_def]
    exact chainFs_bcd
  refine ⟨rfl, hAD, hBCD, ?_⟩
  intro hcon
  rw [hAD, hBCD] at hcon
  exact Except.noConfusion hcon

/-- C3 witness: on a filesystem where `/a -> /b/c` and `b/c/d` exist and
resolution is far from the budget, `/a/d` and `/b/c/d` canonicalize to the
same string. -/
theorem spec_C3_witness :
    xabspath [("a", FsNode.symlink "/b/c"),
              ("b", FsNode.dir [("c", FsNode.dir [("d", FsNode.dir [])])])] "/"
        Errno.EINVAL "/a/d" true =
    xabspath [("a", FsNode.symlink "/b/c"),
              ("b", FsNode.dir [("c", FsNode.dir [("d", FsNode.dir [])])])] "/"
        Errno.EINVAL "/b/c/d" true := by
  apply spec_C3_amended [("a", FsNode.symlink "/b/c"),
    ("b", FsNode.dir [("c", FsNode.dir [("d", FsNode.dir [])])])] "/" Errno.EINVAL true rfl
  intro hcon
  rw [show xabspath [("a", FsNode.symlink "/b/c"),
        ("b", FsNode.dir [("c", FsNode.dir [("d", FsNode.dir [])])])] "/"
        Errno.EINVAL "/a/d" true = Except.ok "/b/c/d" from rfl] at hcon
  exact Except.noConfusion hcon

end Shellbox
